import Mathlib

/-!
Shallow embedding of the WebWaka `ResourceRegistry` cell
(`src/resource-reg-cell.ts`, cell CEL-RESOURCEREG-v0.1.0).

Modelling decisions:
* TypeScript strings are Lean `String`s; a missing/absent string field is the
  empty string `""`, matching the truthiness checks (`!command.id`) in the
  source, which treat both `undefined` and `""` as missing.
* `Date.now()` is modelled by the frozen clock field `now` (no claim depends
  on real time).
* `generateId` builds an id from `Date.now()` and `Math.random()`; ids are
  opaque tokens only ever compared for equality, so the model draws them from
  the counter `idCounter`.  Theorems that need distinctness of queue-entry ids
  take it as an explicit hypothesis.
* `withTimeout` races a stage against a timer; whether the timer fires first
  is environmental nondeterminism, modelled by the oracle `timeoutSchedule`
  (one `Bool` consumed per `withTimeout` call, `false` when exhausted).
* `async` recursion (`execute` retrying via `retryWithBackoff`) is modelled
  with explicit fuel; `Outcome.outOfFuel` marks a run whose retry depth
  exceeds the fuel, i.e. a run that has not terminated within that budget.
* Listener callbacks are opaque; a registered handler is modelled by a
  numeric handle, and an invocation of a handler is recorded as a
  `Event.notify` entry in the event trace every operation returns.
-/

namespace ResourceReg

/-- `CellState` from `types.ts`: the executor lifecycle states. -/
inductive CellState where
  | IDLE
  | VALIDATING
  | PROCESSING
  | COMPLETING
  | OFFLINE
  | SYNCING
  | ERROR
  | DEAD_LETTER
deriving DecidableEq, Repr

/-- String tag of a state, as used in the `state_transition` metric tags. -/
def CellState.label : CellState → String
  | .IDLE => "IDLE"
  | .VALIDATING => "VALIDATING"
  | .PROCESSING => "PROCESSING"
  | .COMPLETING => "COMPLETING"
  | .OFFLINE => "OFFLINE"
  | .SYNCING => "SYNCING"
  | .ERROR => "ERROR"
  | .DEAD_LETTER => "DEAD_LETTER"

/-- Network sub-configuration (`networkConfig` in `ResourceRegistryConfig`). -/
structure NetworkConfig where
  defaultTimeoutMs : Nat
  maxRetries : Nat
  backoffMultiplier : Nat
  initialBackoffMs : Nat
  compressionThreshold : Nat
deriving DecidableEq, Repr

/-- `ResourceRegistryConfig` from `types.ts`. -/
structure ResourceRegistryConfig where
  maxRetries : Nat
  timeoutMs : Nat
  offlineStorageKey : String
  enableTelemetry : Bool
  locale : String
  networkConfig : NetworkConfig
deriving DecidableEq, Repr

/-- `DEFAULT_CONFIG` from `resource-reg-cell.ts`. -/
def DEFAULT_CONFIG : ResourceRegistryConfig :=
  { maxRetries := 3
    timeoutMs := 30000
    offlineStorageKey := "cel_resourcereg_offline_queue"
    enableTelemetry := true
    locale := "en-NG"
    networkConfig :=
      { defaultTimeoutMs := 30000
        maxRetries := 3
        backoffMultiplier := 2
        initialBackoffMs := 1000
        compressionThreshold := 1024 } }

/-- `ResourceRegistryCommand`: the fields read by the cell implementation. -/
structure ResourceRegistryCommand where
  id : String
  type : String
  payload : String
  idempotencyKey : String
  timestamp : Nat
  locale : String
deriving DecidableEq, Repr

/-- `ExecutionContext` from `types.ts`.  `networkQuality` is the string tag
used by the source (`'offline'` routes to the offline path). -/
structure ExecutionContext where
  tenantId : String
  userId : String
  locale : String
  timezone : String
  isOffline : Bool
  networkQuality : String
  correlationId : String
deriving DecidableEq, Repr

/-- `CellMetric` from `types.ts`. -/
structure CellMetric where
  name : String
  value : Nat
  unit : String
  timestamp : Nat
  tags : List (String × String)
deriving DecidableEq, Repr

/-- `OfflineQueueEntry` from `types.ts`.  `id` is the opaque generated id
(see the header note on `generateId`). -/
structure OfflineQueueEntry where
  id : Nat
  command : ResourceRegistryCommand
  context : ExecutionContext
  sequenceNumber : Nat
  vectorClock : List (String × Nat)
  createdAt : Nat
  retryCount : Nat
deriving DecidableEq, Repr

/-- The `data` payload of a result: either the enriched pipeline record
(`process`/`route` output) or the offline-queue receipt. -/
inductive ResultData where
  | pipeline (commandId : String) (processedAt : Nat) (tenantId : String)
      (locale : String) (routed : Bool) (routedAt : Nat)
  | offlineQueued (offlineEntryId : Nat) (queuePosition : Nat)
deriving DecidableEq, Repr

/-- `data.commandId as string` used by `deliver` (only ever applied to a
pipeline record in the source). -/
def ResultData.commandIdOf : ResultData → String
  | .pipeline cid _ _ _ _ _ => cid
  | .offlineQueued _ _ => ""

/-- `ResourceRegistryResult` from `types.ts`; `status` is the literal string
union `'success' | 'partial' | 'failure'`. -/
structure ResourceRegistryResult where
  id : Nat
  commandId : String
  status : String
  data : ResultData
  metrics : List CellMetric
  timestamp : Nat
deriving DecidableEq, Repr

/-- One field-level validation error (`{field, message, code}`). -/
structure FieldError where
  field : String
  message : String
  code : String
deriving DecidableEq, Repr

/-- `ValidationResult` from `types.ts`. -/
structure ValidationResult where
  valid : Bool
  errors : List FieldError
deriving DecidableEq, Repr

/-- `SyncResult` from `types.ts`; `conflicts` is the always-empty `any[]`. -/
structure SyncResult where
  synced : Nat
  failed : Nat
  conflicts : List String
  duration : Nat
deriving DecidableEq, Repr

/-- Thrown failures: `ResourceRegistryValidationError` (with its error list)
or the `Timeout after ...ms` error from `withTimeout`. -/
inductive RegistryError where
  | validationFailed (errors : List FieldError)
  | timedOut (ms : Nat)
deriving DecidableEq, Repr

/-- Observable events of a run: state transitions, listener invocations,
backoff waits, and the per-entry replay activity of `sync`. -/
inductive Event where
  | transition (fromState toState : CellState)
  | notify (listener : Nat) (st : CellState)
  | wait (ms : Nat)
  | replay (entryId : Nat) (seq : Nat)
  | replayOk (entryId : Nat)
  | replayFail (entryId : Nat)
deriving DecidableEq, Repr

/-- The mutable instance fields of a `ResourceRegistry`, plus the model's
clock, id source, listener-handle source and timeout oracle. -/
structure Registry where
  state : CellState
  offlineQueue : List OfflineQueueEntry
  sequenceCounter : Nat
  metrics : List CellMetric
  stateListeners : List Nat
  errorListeners : List Nat
  config : ResourceRegistryConfig
  now : Nat
  idCounter : Nat
  nextListenerId : Nat
  timeoutSchedule : List Bool
deriving DecidableEq, Repr

/-- `new ResourceRegistry(config)` with a fully resolved configuration. -/
def Registry.new (config : ResourceRegistryConfig) : Registry :=
  { state := .IDLE
    offlineQueue := []
    sequenceCounter := 0
    metrics := []
    stateListeners := []
    errorListeners := []
    config := config
    now := 0
    idCounter := 0
    nextListenerId := 0
    timeoutSchedule := [] }

/-- `recordMetric`: append a metric sample. -/
def recordMetric (name : String) (value : Nat) (unit : String)
    (tags : List (String × String)) (s : Registry) : Registry :=
  { s with metrics := s.metrics ++
      [{ name := name, value := value, unit := unit, timestamp := s.now, tags := tags }] }

/-- `transitionTo`: assign the new state, synchronously notify every state
listener, and record the `state_transition` metric. -/
def transitionTo (newState : CellState) (s : Registry) : Registry × List Event :=
  let oldState := s.state
  let s := { s with state := newState }
  let notifications := s.stateListeners.map (fun l => Event.notify l newState)
  let s := recordMetric "state_transition" 1 "count"
    [("from", oldState.label), ("to", newState.label)] s
  (s, Event.transition oldState newState :: notifications)

/-- `generateId`: draw a fresh opaque id. -/
def generateId (s : Registry) : Nat × Registry :=
  (s.idCounter, { s with idCounter := s.idCounter + 1 })

/-- One `withTimeout` race: the oracle decides whether the timer fires. -/
def takeTimeout (s : Registry) : Bool × Registry :=
  match s.timeoutSchedule with
  | [] => (false, s)
  | b :: rest => (b, { s with timeoutSchedule := rest })

/-- `validate`: push one `REQUIRED` error per missing field, in source order. -/
def validate (command : ResourceRegistryCommand) : ValidationResult :=
  let errors : List FieldError :=
    (if command.id = "" then
      [{ field := "id", message := "Required", code := "REQUIRED" }] else []) ++
    (if command.type = "" then
      [{ field := "type", message := "Required", code := "REQUIRED" }] else []) ++
    (if command.idempotencyKey = "" then
      [{ field := "idempotencyKey", message := "Required for offline support",
         code := "REQUIRED" }] else [])
  { valid := errors.isEmpty, errors := errors }

/-- `process`: enrich the command with context and a processing timestamp. -/
def process (command : ResourceRegistryCommand) (context : ExecutionContext)
    (now : Nat) : ResultData :=
  .pipeline command.id now context.tenantId context.locale false 0

/-- `route`: mark the record as routed. -/
def route (data : ResultData) (now : Nat) : ResultData :=
  match data with
  | .pipeline cid pAt tid loc _ _ => .pipeline cid pAt tid loc true now
  | d => d

/-- `deliver`: wrap the routed record into a success result with a metrics
snapshot. -/
def deliver (data : ResultData) (resultId : Nat) (s : Registry) :
    ResourceRegistryResult :=
  { id := resultId
    commandId := data.commandIdOf
    status := "success"
    data := data
    metrics := s.metrics
    timestamp := s.now }

/-- `canRetry`: unconditionally `true` in the source. -/
def canRetry (_command : ResourceRegistryCommand) : Bool := true

/-- The backoff delay computed by `retryWithBackoff`:
`initialBackoffMs * backoffMultiplier ** 0`. -/
def retryDelay (config : ResourceRegistryConfig) : Nat :=
  config.networkConfig.initialBackoffMs * config.networkConfig.backoffMultiplier ^ 0

/-- The offline-routing guard at the top of `execute`. -/
def isOfflineContext (context : ExecutionContext) : Bool :=
  context.isOffline || context.networkQuality == "offline"

/-- Outcome of an `execute` call: a returned result, a thrown error, or a
run whose retry recursion exhausted the modelling fuel. -/
inductive Outcome where
  | ok (result : ResourceRegistryResult)
  | thrown (error : RegistryError)
  | outOfFuel
deriving DecidableEq, Repr

/-- `executeOffline`: transition to `OFFLINE`, append a queue entry with the
next sequence number, record the audit/metric, and return a `partial`
result.  `persistOfflineQueue` and `emitAudit` are no-ops in the source. -/
def executeOffline (command : ResourceRegistryCommand)
    (context : ExecutionContext) (s : Registry) :
    ResourceRegistryResult × Registry × List Event :=
  let t := transitionTo .OFFLINE s
  let g := generateId t.1
  let entryId := g.1
  let s1 := { g.2 with sequenceCounter := g.2.sequenceCounter + 1 }
  let entry : OfflineQueueEntry :=
    { id := entryId
      command := command
      context := context
      sequenceNumber := s1.sequenceCounter
      vectorClock := [(context.userId, s1.sequenceCounter)]
      createdAt := s1.now
      retryCount := 0 }
  let s2 := { s1 with offlineQueue := s1.offlineQueue ++ [entry] }
  let s3 := recordMetric "offline_queue_size" s2.offlineQueue.length "count" [] s2
  let g2 := generateId s3
  ({ id := g2.1
     commandId := command.id
     status := "partial"
     data := .offlineQueued entry.id s2.offlineQueue.length
     metrics := []
     timestamp := g2.2.now }, g2.2, t.2)

/-- The `try` block of `execute` (after the initial `VALIDATING` transition):
validation under timeout, `PROCESSING` transition, processing under timeout,
routing, `COMPLETING` transition, delivery, success metrics, `IDLE`. -/
def attemptBody (command : ResourceRegistryCommand) (context : ExecutionContext)
    (startTime : Nat) (s : Registry) :
    Except RegistryError ResourceRegistryResult × Registry × List Event :=
  let w1 := takeTimeout s
  if w1.1 then (.error (.timedOut w1.2.config.timeoutMs), w1.2, [])
  else
    let validated := validate command
    if !validated.valid then
      (.error (.validationFailed validated.errors), w1.2, [])
    else
      let t1 := transitionTo .PROCESSING w1.2
      let w2 := takeTimeout t1.1
      if w2.1 then (.error (.timedOut w2.2.config.timeoutMs), w2.2, t1.2)
      else
        let processed := process command context w2.2.now
        let routed := route processed w2.2.now
        let t2 := transitionTo .COMPLETING w2.2
        let g := generateId t2.1
        let result := deliver routed g.1 g.2
        let s1 := recordMetric "execution_duration_ms" (g.2.now - startTime) "ms" [] g.2
        let s2 := recordMetric "execution_success" 1 "count" [] s1
        let t3 := transitionTo .IDLE s2
        (.ok result, t3.1, t1.2 ++ t2.2 ++ t3.2)

/-- The offline branch of `execute` (delegation to `executeOffline`). -/
def offlineBranch (command : ResourceRegistryCommand)
    (context : ExecutionContext) (s : Registry) :
    Outcome × Registry × List Event :=
  let r := executeOffline command context s
  (.ok r.1, r.2.1, r.2.2)

/-- The `catch` block of `execute` up to the retry decision: transition to
`ERROR` and record the error metric (`emitAudit` is a no-op). -/
def errorPath (s : Registry) : Registry × List Event :=
  let t := transitionTo .ERROR s
  (recordMetric "execution_error" 1 "count" [] t.1, t.2)

/-- `execute`: offline routing, the pipeline attempt, and on failure the
unconditional-retry path (`retryWithBackoff` re-invokes `execute` with the
same command and context after waiting `retryDelay`).  The fuel bounds the
retry depth; the source has no such bound. -/
def execute : Nat → ResourceRegistryCommand → ExecutionContext → Registry →
    Outcome × Registry × List Event
  | 0, command, context, s =>
    if isOfflineContext context then offlineBranch command context s
    else (.outOfFuel, s, [])
  | fuel + 1, command, context, s =>
    if isOfflineContext context then offlineBranch command context s
    else
      let t := transitionTo .VALIDATING s
      let a := attemptBody command context s.now t.1
      match a.1 with
      | .ok result => (.ok result, a.2.1, t.2 ++ a.2.2)
      | .error e =>
        let p := errorPath a.2.1
        if command.idempotencyKey != "" && canRetry command then
          let r := execute fuel command context p.1
          (r.1, r.2.1,
           t.2 ++ a.2.2 ++ p.2 ++ Event.wait (retryDelay p.1.config) :: r.2.2)
        else
          (.thrown e, p.1, t.2 ++ a.2.2 ++ p.2)

/-- The ascending sequence-number comparison used by `sync`'s
`sort((a, b) => a.sequenceNumber - b.sequenceNumber)`. -/
def entryLe (a b : OfflineQueueEntry) : Prop :=
  a.sequenceNumber ≤ b.sequenceNumber

instance : DecidableRel entryLe := fun a b =>
  inferInstanceAs (Decidable (a.sequenceNumber ≤ b.sequenceNumber))

instance : IsTotal OfflineQueueEntry entryLe :=
  ⟨fun a b => Nat.le_total a.sequenceNumber b.sequenceNumber⟩

instance : IsTrans OfflineQueueEntry entryLe :=
  ⟨fun _ _ _ h h' => Nat.le_trans h h'⟩

/-- The body of `sync`'s `for` loop over the sorted snapshot.  On replay
success the entry is removed from the live queue; on a thrown failure the
shared entry object's `retryCount` is incremented in place (modelled by an
id-directed map over the live queue).  A replay that runs out of fuel makes
the whole `sync` call run out of fuel, mirroring a non-terminating `await`. -/
def syncLoop (fuel : Nat) :
    List OfflineQueueEntry → Nat → Nat → Registry →
    Option (Nat × Nat) × Registry × List Event
  | [], synced, failed, s => (some (synced, failed), s, [])
  | entry :: rest, synced, failed, s =>
    let onlineContext := { entry.context with isOffline := false }
    let r := execute fuel entry.command onlineContext s
    match r.1 with
    | .ok _ =>
      let s1 := { r.2.1 with offlineQueue :=
        r.2.1.offlineQueue.filter (fun e => e.id != entry.id) }
      let q := syncLoop fuel rest (synced + 1) failed s1
      (q.1, q.2.1, Event.replay entry.id entry.sequenceNumber ::
        (r.2.2 ++ Event.replayOk entry.id :: q.2.2))
    | .thrown _ =>
      let s1 := { r.2.1 with offlineQueue :=
        r.2.1.offlineQueue.map (fun e =>
          if e.id = entry.id then { e with retryCount := e.retryCount + 1 } else e) }
      let q := syncLoop fuel rest synced (failed + 1) s1
      (q.1, q.2.1, Event.replay entry.id entry.sequenceNumber ::
        (r.2.2 ++ Event.replayFail entry.id :: q.2.2))
    | .outOfFuel =>
      (none, r.2.1, Event.replay entry.id entry.sequenceNumber :: r.2.2)

/-- `sync`: transition to `SYNCING`, snapshot the queue sorted ascending by
sequence number, replay each snapshot entry with `isOffline := false`, then
persist (no-op), transition to `IDLE` and return the summary. -/
def sync (fuel : Nat) (s : Registry) :
    Option SyncResult × Registry × List Event :=
  let t := transitionTo .SYNCING s
  let startTime := t.1.now
  let sorted := List.insertionSort entryLe t.1.offlineQueue
  let q := syncLoop fuel sorted 0 0 t.1
  match q.1 with
  | none => (none, q.2.1, t.2 ++ q.2.2)
  | some (synced, failed) =>
    let t2 := transitionTo .IDLE q.2.1
    (some { synced := synced
            failed := failed
            conflicts := []
            duration := t2.1.now - startTime }, t2.1, t.2 ++ q.2.2 ++ t2.2)

/-- `getState`. -/
def getState (s : Registry) : CellState := s.state

/-- `getMetrics` (snapshot copy). -/
def getMetrics (s : Registry) : List CellMetric := s.metrics

/-- `onStateChange`: register a state listener, returning its handle. -/
def onStateChange (s : Registry) : Nat × Registry :=
  (s.nextListenerId,
   { s with stateListeners := s.stateListeners ++ [s.nextListenerId]
            nextListenerId := s.nextListenerId + 1 })

/-- `onError`: register an error listener, returning its handle. -/
def onError (s : Registry) : Nat × Registry :=
  (s.nextListenerId,
   { s with errorListeners := s.errorListeners ++ [s.nextListenerId]
            nextListenerId := s.nextListenerId + 1 })

/-- `dispose`: persist the queue (no-op), clear both listener lists, then
transition to `IDLE`. -/
def dispose (s : Registry) : Registry × List Event :=
  let s := { s with stateListeners := [], errorListeners := [] }
  transitionTo .IDLE s

/-- One public operation on the executor, for reasoning about arbitrary
call sequences.  The unsubscribe constructors model running the closures
returned by `onStateChange`/`onError`. -/
inductive Op where
  | execute (fuel : Nat) (command : ResourceRegistryCommand)
      (context : ExecutionContext)
  | executeOffline (command : ResourceRegistryCommand)
      (context : ExecutionContext)
  | sync (fuel : Nat)
  | dispose
  | onStateChange
  | onError
  | unsubscribeState (l : Nat)
  | unsubscribeError (l : Nat)
deriving DecidableEq, Repr

/-- Apply one operation to the executor state. -/
def applyOp : Op → Registry → Registry × List Event
  | .execute fuel command context, s => (execute fuel command context s).2
  | .executeOffline command context, s => (executeOffline command context s).2
  | .sync fuel, s => (sync fuel s).2
  | .dispose, s => dispose s
  | .onStateChange, s => ((onStateChange s).2, [])
  | .onError, s => ((onError s).2, [])
  | .unsubscribeState l, s =>
    ({ s with stateListeners := s.stateListeners.filter (fun h => h != l) }, [])
  | .unsubscribeError l, s =>
    ({ s with errorListeners := s.errorListeners.filter (fun h => h != l) }, [])

/-- Apply a sequence of operations, concatenating the event traces. -/
def applyOps : List Op → Registry → Registry × List Event
  | [], s => (s, [])
  | op :: ops, s =>
    let (s', ev) := applyOp op s
    let (s'', evs) := applyOps ops s'
    (s'', ev ++ evs)

/-! ### Specification-side vocabulary -/

/-- The fields of a command that are missing in the sense of `validate`
(empty string = absent, see the header note), in source validation order. -/
def missingFields (command : ResourceRegistryCommand) : List String :=
  (if command.id = "" then ["id"] else []) ++
  (if command.type = "" then ["type"] else []) ++
  (if command.idempotencyKey = "" then ["idempotencyKey"] else [])

/-- Is this event one of the replay-bookkeeping events emitted by `sync`? -/
def Event.isReplayEv : Event → Bool
  | .replay _ _ => true
  | .replayOk _ => true
  | .replayFail _ => true
  | _ => false

/-- Number of successful replays recorded in a trace. -/
def okCount (evs : List Event) : Nat :=
  (evs.filter fun ev => match ev with | .replayOk _ => true | _ => false).length

/-- Number of failed replays recorded in a trace. -/
def failCount (evs : List Event) : Nat :=
  (evs.filter fun ev => match ev with | .replayFail _ => true | _ => false).length

/-- The replay order of a trace: the (entry id, sequence number) pairs of its
`replay` events, in trace order. -/
def replayTrace (evs : List Event) : List (Nat × Nat) :=
  evs.filterMap fun ev => match ev with | .replay i n => some (i, n) | _ => none

/-! ### Concrete fixtures used by witnesses and counterexamples -/

/-- The `{id:"cmd-1", type:"noop", idempotencyKey:"k1"}` command of the spec's
concrete scenario. -/
def cmdNoop : ResourceRegistryCommand :=
  { id := "cmd-1", type := "noop", payload := "", idempotencyKey := "k1"
    timestamp := 0, locale := "en-NG" }

/-- A command missing `id` but carrying an idempotency key. -/
def cmdNoId : ResourceRegistryCommand :=
  { id := "", type := "noop", payload := "", idempotencyKey := "k2"
    timestamp := 0, locale := "en-NG" }

/-- A command missing both `id` and `idempotencyKey`. -/
def cmdBare : ResourceRegistryCommand :=
  { id := "", type := "noop", payload := "", idempotencyKey := ""
    timestamp := 0, locale := "en-NG" }

/-- A command missing only `idempotencyKey`. -/
def cmdNoKey : ResourceRegistryCommand :=
  { id := "cmd-9", type := "noop", payload := "", idempotencyKey := ""
    timestamp := 0, locale := "en-NG" }

/-- An online execution context. -/
def ctxOnline : ExecutionContext :=
  { tenantId := "tenant-001", userId := "user-001", locale := "en-NG"
    timezone := "Africa/Lagos", isOffline := false, networkQuality := "medium"
    correlationId := "corr-001" }

/-- An offline execution context (`isOffline = true`). -/
def ctxOffline : ExecutionContext :=
  { tenantId := "tenant-001", userId := "user-001", locale := "en-NG"
    timezone := "Africa/Lagos", isOffline := true, networkQuality := "medium"
    correlationId := "corr-002" }

/-- A fresh executor with the default configuration. -/
def initialRegistry : Registry := Registry.new DEFAULT_CONFIG

/-- The events a single operation may emit, relative to the listener list and
configuration it started from. -/
def GoodEvent (listeners : List Nat) (config : ResourceRegistryConfig)
    (ev : Event) : Prop :=
  ev.isReplayEv = false ∧
  (∀ l st, ev = Event.notify l st → l ∈ listeners) ∧
  (∀ d, ev = Event.wait d → d = retryDelay config)

/-- The entry that `executeOffline` appends, in terms of the starting state. -/
def offlineEntry (command : ResourceRegistryCommand)
    (context : ExecutionContext) (s : Registry) : OfflineQueueEntry :=
  { id := s.idCounter
    command := command
    context := context
    sequenceNumber := s.sequenceCounter + 1
    vectorClock := [(context.userId, s.sequenceCounter + 1)]
    createdAt := s.now
    retryCount := 0 }

/-- Replace `config.maxRetries`, leaving everything else alone. -/
def withMaxRetries (k : Nat) (s : Registry) : Registry :=
  { s with config := { s.config with maxRetries := k } }

/-- Every entry currently in the offline queue wraps a command with a
non-empty idempotency key. -/
def KeyedQueue (s : Registry) : Prop :=
  ∀ e ∈ s.offlineQueue, e.command.idempotencyKey ≠ ""

/-- An operation whose input command (if any) carries an idempotency key. -/
def Op.keyedInput : Op → Prop
  | .execute _ command _ => command.idempotencyKey ≠ ""
  | .executeOffline command _ => command.idempotencyKey ≠ ""
  | _ => True

/-- Every listener handle currently registered, and every handle that will
ever be issued, is at least `n`. -/
def ListenerFloor (n : Nat) (s : Registry) : Prop :=
  (∀ l ∈ s.stateListeners, n ≤ l) ∧
  (∀ l ∈ s.errorListeners, n ≤ l) ∧
  n ≤ s.nextListenerId

/-- Entry ids in the queue are all below the id counter (they were issued by
it). -/
def QueueFresh (s : Registry) : Prop :=
  ∀ e ∈ s.offlineQueue, e.id < s.idCounter

/-- Entry ids in the queue are pairwise distinct. -/
def QueueNodup (s : Registry) : Prop :=
  (s.offlineQueue.map (fun e => e.id)).Nodup

/-- The in-place `retryCount` increment `sync` performs on the entry with a
given id. -/
def bumpRetry (i : Nat) (e : OfflineQueueEntry) : OfflineQueueEntry :=
  if e.id = i then { e with retryCount := e.retryCount + 1 } else e

/-! ### Concrete sync scenarios for the witnesses -/

/-- A queued entry whose replay will succeed (valid command, online
context). -/
def entA : OfflineQueueEntry :=
  { id := 100, command := cmdNoop, context := ctxOnline, sequenceNumber := 2,
    vectorClock := [], createdAt := 0, retryCount := 0 }

/-- A queued entry whose replay will fail (command missing its idempotency
key fails validation and is not retried). -/
def entB : OfflineQueueEntry :=
  { id := 101, command := cmdNoKey, context := ctxOnline, sequenceNumber := 1,
    vectorClock := [], createdAt := 0, retryCount := 3 }

/-- An executor holding `entA` and `entB`. -/
def regQ : Registry :=
  { initialRegistry with
      offlineQueue := [entA, entB]
      sequenceCounter := 2
      idCounter := 102 }

/-- Three replayable entries stored out of sequence order (2, 3, 1). -/
def regC4 : Registry :=
  { initialRegistry with
      offlineQueue :=
      [{ id := 100, command := cmdNoop, context := ctxOnline,
         sequenceNumber := 2, vectorClock := [], createdAt := 0,
         retryCount := 0 },
       { id := 101, command := cmdNoop, context := ctxOnline,
         sequenceNumber := 3, vectorClock := [], createdAt := 0,
         retryCount := 0 },
       { id := 102, command := cmdNoop, context := ctxOnline,
         sequenceNumber := 1, vectorClock := [], createdAt := 0,
         retryCount := 0 }]
      sequenceCounter := 3
      idCounter := 103 }

/-! ### Basic lemmas about validation -/

lemma validate_errors_fields (command : ResourceRegistryCommand) :
    (validate command).errors.map (·.field) = missingFields command := by
  unfold validate missingFields
  by_cases h1 : command.id = "" <;> by_cases h2 : command.type = "" <;>
    by_cases h3 : command.idempotencyKey = "" <;> simp [h1, h2, h3]

lemma validate_valid_iff (command : ResourceRegistryCommand) :
    (validate command).valid = true ↔ missingFields command = [] := by
  unfold validate missingFields
  by_cases h1 : command.id = "" <;> by_cases h2 : command.type = "" <;>
    by_cases h3 : command.idempotencyKey = "" <;> simp [h1, h2, h3]

/-! ### Frame lemmas: which fields each operation can touch -/

lemma transitionTo_frame (st : CellState) (s : Registry) :
    (transitionTo st s).1.config = s.config ∧
    (transitionTo st s).1.offlineQueue = s.offlineQueue ∧
    (transitionTo st s).1.sequenceCounter = s.sequenceCounter ∧
    (transitionTo st s).1.stateListeners = s.stateListeners ∧
    (transitionTo st s).1.errorListeners = s.errorListeners ∧
    (transitionTo st s).1.nextListenerId = s.nextListenerId ∧
    (transitionTo st s).1.idCounter = s.idCounter ∧
    (transitionTo st s).1.timeoutSchedule = s.timeoutSchedule ∧
    (transitionTo st s).1.now = s.now ∧
    (transitionTo st s).1.state = st := by
  simp [transitionTo, recordMetric]

lemma errorPath_frame (s : Registry) :
    (errorPath s).1.config = s.config ∧
    (errorPath s).1.offlineQueue = s.offlineQueue ∧
    (errorPath s).1.sequenceCounter = s.sequenceCounter ∧
    (errorPath s).1.stateListeners = s.stateListeners ∧
    (errorPath s).1.errorListeners = s.errorListeners ∧
    (errorPath s).1.nextListenerId = s.nextListenerId ∧
    (errorPath s).1.idCounter = s.idCounter ∧
    (errorPath s).1.timeoutSchedule = s.timeoutSchedule ∧
    (errorPath s).1.now = s.now ∧
    (errorPath s).1.state = .ERROR := by
  simp [errorPath, transitionTo, recordMetric]

lemma attemptBody_frame (command : ResourceRegistryCommand)
    (context : ExecutionContext) (startTime : Nat) (s : Registry) :
    (attemptBody command context startTime s).2.1.config = s.config ∧
    (attemptBody command context startTime s).2.1.offlineQueue = s.offlineQueue ∧
    (attemptBody command context startTime s).2.1.sequenceCounter = s.sequenceCounter ∧
    (attemptBody command context startTime s).2.1.stateListeners = s.stateListeners ∧
    (attemptBody command context startTime s).2.1.errorListeners = s.errorListeners ∧
    (attemptBody command context startTime s).2.1.nextListenerId = s.nextListenerId ∧
    (attemptBody command context startTime s).2.1.now = s.now ∧
    s.idCounter ≤ (attemptBody command context startTime s).2.1.idCounter := by
  unfold attemptBody
  cases hts : s.timeoutSchedule with
  | nil =>
    by_cases hv : (validate command).valid <;>
      simp [takeTimeout, hts, hv, transitionTo, recordMetric, generateId,
        Nat.le_succ]
  | cons b rest =>
    cases b with
    | true => simp [takeTimeout, hts]
    | false =>
      by_cases hv : (validate command).valid
      · cases rest with
        | nil =>
          simp [takeTimeout, hts, hv, transitionTo, recordMetric, generateId,
            Nat.le_succ]
        | cons b2 r2 =>
          cases b2 <;>
            simp [takeTimeout, hts, hv, transitionTo, recordMetric, generateId,
              Nat.le_succ]
      · simp [takeTimeout, hts, hv]

lemma executeOffline_frame (command : ResourceRegistryCommand)
    (context : ExecutionContext) (s : Registry) :
    (executeOffline command context s).2.1.config = s.config ∧
    (executeOffline command context s).2.1.stateListeners = s.stateListeners ∧
    (executeOffline command context s).2.1.errorListeners = s.errorListeners ∧
    (executeOffline command context s).2.1.nextListenerId = s.nextListenerId ∧
    (executeOffline command context s).2.1.timeoutSchedule = s.timeoutSchedule ∧
    (executeOffline command context s).2.1.now = s.now ∧
    (executeOffline command context s).2.1.idCounter = s.idCounter + 2 := by
  simp [executeOffline, transitionTo, recordMetric, generateId]

lemma execute_frame (fuel : Nat) (command : ResourceRegistryCommand)
    (context : ExecutionContext) (s : Registry) :
    (execute fuel command context s).2.1.config = s.config ∧
    (execute fuel command context s).2.1.stateListeners = s.stateListeners ∧
    (execute fuel command context s).2.1.errorListeners = s.errorListeners ∧
    (execute fuel command context s).2.1.nextListenerId = s.nextListenerId ∧
    (execute fuel command context s).2.1.now = s.now ∧
    s.idCounter ≤ (execute fuel command context s).2.1.idCounter := by
  induction fuel generalizing s with
  | zero =>
    by_cases hoff : isOfflineContext context
    · obtain ⟨h1, h2, h3, h4, h5, h6, h7⟩ := executeOffline_frame command context s
      simp [execute, hoff, offlineBranch, h1, h2, h3, h4, h6, h7, Nat.le_add_right]
    · simp [execute, hoff]
  | succ n ih =>
    by_cases hoff : isOfflineContext context
    · obtain ⟨h1, h2, h3, h4, h5, h6, h7⟩ := executeOffline_frame command context s
      simp [execute, hoff, offlineBranch, h1, h2, h3, h4, h6, h7, Nat.le_add_right]
    · obtain ⟨ht1, ht2, ht3, ht4, ht5, ht6, ht7, ht8, ht9, ht10⟩ :=
        transitionTo_frame .VALIDATING s
      obtain ⟨ha1, ha2, ha3, ha4, ha5, ha6, ha7, ha8⟩ :=
        attemptBody_frame command context s.now (transitionTo .VALIDATING s).1
      rcases hab : (attemptBody command context s.now
          (transitionTo .VALIDATING s).1).1 with e | res
      · obtain ⟨he1, he2, he3, he4, he5, he6, he7, he8, he9, he10⟩ :=
          errorPath_frame (attemptBody command context s.now
            (transitionTo .VALIDATING s).1).2.1
        by_cases hkey : command.idempotencyKey = ""
        · simp [execute, hoff, hab, hkey, canRetry, he1, he4, he5, he6, he7,
            he9, ha1, ha4, ha5, ha6, ha7, ht1, ht4, ht5, ht6, ht9]
          exact le_trans ht7.symm.le ha8
        · obtain ⟨hi1, hi2, hi3, hi4, hi5, hi6⟩ :=
            ih (errorPath (attemptBody command context s.now
              (transitionTo .VALIDATING s).1).2.1).1
          simp [execute, hoff, hab, hkey, canRetry, hi1, hi2, hi3, hi4, hi5,
            he1, he4, he5, he6, he9, ha1, ha4, ha5, ha6, ha7,
            ht1, ht4, ht5, ht6, ht9]
          calc s.idCounter
              ≤ (attemptBody command context s.now
                  (transitionTo .VALIDATING s).1).2.1.idCounter :=
                le_trans ht7.symm.le ha8
            _ = (errorPath (attemptBody command context s.now
                  (transitionTo .VALIDATING s).1).2.1).1.idCounter := he7.symm
            _ ≤ _ := hi6
      · simp [execute, hoff, hab, ht1, ht4, ht5, ht6, ht9,
          ha1, ha4, ha5, ha6, ha7]
        exact le_trans ht7.symm.le ha8

/-! ### Event-shape lemmas: what events each operation can emit -/



lemma goodEvent_transition (listeners : List Nat)
    (config : ResourceRegistryConfig) (a b : CellState) :
    GoodEvent listeners config (Event.transition a b) := by
  refine ⟨rfl, ?_, ?_⟩
  · intro _ _ h
    cases h
  · intro _ h
    cases h

lemma goodEvent_notify (listeners : List Nat)
    (config : ResourceRegistryConfig) (l : Nat) (st : CellState)
    (hl : l ∈ listeners) :
    GoodEvent listeners config (Event.notify l st) := by
  refine ⟨rfl, ?_, ?_⟩
  · intro l' st' h
    cases h
    exact hl
  · intro _ h
    cases h

lemma transitionTo_events_good (st : CellState) (s : Registry) :
    ∀ ev ∈ (transitionTo st s).2, GoodEvent s.stateListeners s.config ev := by
  intro ev hev
  simp only [transitionTo] at hev
  rcases List.mem_cons.mp hev with h | h
  · subst h
    exact goodEvent_transition _ _ _ _
  · obtain ⟨l, hl, hev'⟩ := List.mem_map.mp h
    subst hev'
    exact goodEvent_notify _ _ _ _ hl

lemma attemptBody_events_good (command : ResourceRegistryCommand)
    (context : ExecutionContext) (startTime : Nat) (s : Registry) :
    ∀ ev ∈ (attemptBody command context startTime s).2.2,
      GoodEvent s.stateListeners s.config ev := by
  intro ev hev
  cases hts : s.timeoutSchedule with
  | nil =>
    by_cases hv : (validate command).valid
    · simp [attemptBody, takeTimeout, hts, hv, transitionTo, recordMetric,
        generateId] at hev
      rcases hev with h | ⟨l, hl, h⟩ | h | ⟨l, hl, h⟩ | h | ⟨l, hl, h⟩
      · subst h
        exact goodEvent_transition _ _ _ _
      · rw [← h]
        exact goodEvent_notify _ _ _ _ hl
      · subst h
        exact goodEvent_transition _ _ _ _
      · rw [← h]
        exact goodEvent_notify _ _ _ _ hl
      · subst h
        exact goodEvent_transition _ _ _ _
      · rw [← h]
        exact goodEvent_notify _ _ _ _ hl
    · simp [attemptBody, takeTimeout, hts, hv] at hev
  | cons b rest =>
    cases b with
    | true => simp [attemptBody, takeTimeout, hts] at hev
    | false =>
      by_cases hv : (validate command).valid
      · cases rest with
        | nil =>
          simp [attemptBody, takeTimeout, hts, hv, transitionTo, recordMetric,
            generateId] at hev
          rcases hev with h | ⟨l, hl, h⟩ | h | ⟨l, hl, h⟩ | h | ⟨l, hl, h⟩
          · subst h
            exact goodEvent_transition _ _ _ _
          · rw [← h]
            exact goodEvent_notify _ _ _ _ hl
          · subst h
            exact goodEvent_transition _ _ _ _
          · rw [← h]
            exact goodEvent_notify _ _ _ _ hl
          · subst h
            exact goodEvent_transition _ _ _ _
          · rw [← h]
            exact goodEvent_notify _ _ _ _ hl
        | cons b2 r2 =>
          cases b2 with
          | true =>
            simp [attemptBody, takeTimeout, hts, hv, transitionTo,
              recordMetric, generateId] at hev
            rcases hev with h | ⟨l, hl, h⟩
            · subst h
              exact goodEvent_transition _ _ _ _
            · rw [← h]
              exact goodEvent_notify _ _ _ _ hl
          | false =>
            simp [attemptBody, takeTimeout, hts, hv, transitionTo,
              recordMetric, generateId] at hev
            rcases hev with h | ⟨l, hl, h⟩ | h | ⟨l, hl, h⟩ | h | ⟨l, hl, h⟩
            · subst h
              exact goodEvent_transition _ _ _ _
            · rw [← h]
              exact goodEvent_notify _ _ _ _ hl
            · subst h
              exact goodEvent_transition _ _ _ _
            · rw [← h]
              exact goodEvent_notify _ _ _ _ hl
            · subst h
              exact goodEvent_transition _ _ _ _
            · rw [← h]
              exact goodEvent_notify _ _ _ _ hl
      · simp [attemptBody, takeTimeout, hts, hv] at hev

lemma goodEvent_wait (listeners : List Nat) (config : ResourceRegistryConfig)
    (d : Nat) (hd : d = retryDelay config) :
    GoodEvent listeners config (Event.wait d) := by
  refine ⟨rfl, ?_, ?_⟩
  · intro _ _ h
    cases h
  · intro d' h
    cases h
    exact hd

lemma executeOffline_events_good (command : ResourceRegistryCommand)
    (context : ExecutionContext) (s : Registry) :
    ∀ ev ∈ (executeOffline command context s).2.2,
      GoodEvent s.stateListeners s.config ev := by
  intro ev hev
  simp [executeOffline, transitionTo, recordMetric, generateId] at hev
  rcases hev with h | ⟨l, hl, h⟩
  · subst h
    exact goodEvent_transition _ _ _ _
  · rw [← h]
    exact goodEvent_notify _ _ _ _ hl

lemma errorPath_events_good (s : Registry) :
    ∀ ev ∈ (errorPath s).2, GoodEvent s.stateListeners s.config ev := by
  intro ev hev
  simp [errorPath, transitionTo, recordMetric] at hev
  rcases hev with h | ⟨l, hl, h⟩
  · subst h
    exact goodEvent_transition _ _ _ _
  · rw [← h]
    exact goodEvent_notify _ _ _ _ hl

lemma goodEvent_transport {L L' : List Nat}
    {c c' : ResourceRegistryConfig} {ev : Event}
    (hL : L' = L) (hc : c' = c) (h : GoodEvent L' c' ev) :
    GoodEvent L c ev := by
  rw [← hL, ← hc]
  exact h

lemma execute_events_good (fuel : Nat) (command : ResourceRegistryCommand)
    (context : ExecutionContext) (s : Registry) :
    ∀ ev ∈ (execute fuel command context s).2.2,
      GoodEvent s.stateListeners s.config ev := by
  induction fuel generalizing s with
  | zero =>
    intro ev hev
    by_cases hoff : isOfflineContext context
    · simp only [execute, hoff, if_true, offlineBranch] at hev
      exact executeOffline_events_good command context s ev hev
    · simp [execute, hoff] at hev
  | succ n ih =>
    intro ev hev
    by_cases hoff : isOfflineContext context
    · simp only [execute, hoff, if_true, offlineBranch] at hev
      exact executeOffline_events_good command context s ev hev
    · obtain ⟨ht1, ht2, ht3, ht4, ht5, ht6, ht7, ht8, ht9, ht10⟩ :=
        transitionTo_frame .VALIDATING s
      obtain ⟨ha1, ha2, ha3, ha4, ha5, ha6, ha7, ha8⟩ :=
        attemptBody_frame command context s.now (transitionTo .VALIDATING s).1
      rcases hab : (attemptBody command context s.now
          (transitionTo .VALIDATING s).1).1 with e | res
      · obtain ⟨he1, he2, he3, he4, he5, he6, he7, he8, he9, he10⟩ :=
          errorPath_frame (attemptBody command context s.now
            (transitionTo .VALIDATING s).1).2.1
        by_cases hkey : command.idempotencyKey = ""
        · simp only [execute, hoff, Bool.false_eq_true, if_false, hab, hkey,
            canRetry, bne_self_eq_false, Bool.false_and, List.mem_append,
            List.append_assoc] at hev
          rcases hev with h | h | h
          · exact transitionTo_events_good .VALIDATING s ev h
          · exact goodEvent_transport (ht4.trans rfl) (ht1.trans rfl)
              (attemptBody_events_good command context s.now
                (transitionTo .VALIDATING s).1 ev h)
          · exact goodEvent_transport ((ha4.trans ht4).trans rfl)
              ((ha1.trans ht1).trans rfl)
              (errorPath_events_good _ ev h)
        · have hcond : (command.idempotencyKey != "" && canRetry command) = true := by
            simp [canRetry, hkey]
          simp only [execute, hoff, Bool.false_eq_true, if_false, hab, hcond,
            if_true, List.mem_append, List.append_assoc, List.mem_cons] at hev
          rcases hev with h | h | h | h | h
          · exact transitionTo_events_good .VALIDATING s ev h
          · exact goodEvent_transport ht4 ht1
              (attemptBody_events_good command context s.now
                (transitionTo .VALIDATING s).1 ev h)
          · exact goodEvent_transport (ha4.trans ht4) (ha1.trans ht1)
              (errorPath_events_good _ ev h)
          · subst h
            exact goodEvent_wait _ _ _ (by rw [he1, ha1, ht1])
          · exact goodEvent_transport ((he4.trans ha4).trans ht4)
              ((he1.trans ha1).trans ht1) (ih _ ev h)
      · simp only [execute, hoff, Bool.false_eq_true, if_false, hab,
          List.mem_append] at hev
        rcases hev with h | h
        · exact transitionTo_events_good .VALIDATING s ev h
        · exact goodEvent_transport ht4 ht1
            (attemptBody_events_good command context s.now
              (transitionTo .VALIDATING s).1 ev h)

/-! ### Queue-evolution lemmas -/



lemma executeOffline_queue (command : ResourceRegistryCommand)
    (context : ExecutionContext) (s : Registry) :
    (executeOffline command context s).2.1.offlineQueue =
      s.offlineQueue ++ [offlineEntry command context s] ∧
    (executeOffline command context s).2.1.sequenceCounter =
      s.sequenceCounter + 1 := by
  simp [executeOffline, transitionTo, recordMetric, generateId, offlineEntry]

lemma execute_queue (fuel : Nat) (command : ResourceRegistryCommand)
    (context : ExecutionContext) (s : Registry) :
    ∃ tail,
      (execute fuel command context s).2.1.offlineQueue =
        s.offlineQueue ++ tail ∧
      (tail.map (fun e => e.id)).Nodup ∧
      ∀ e ∈ tail,
        s.idCounter ≤ e.id ∧
        e.id < (execute fuel command context s).2.1.idCounter ∧
        e.command = command := by
  induction fuel generalizing s with
  | zero =>
    by_cases hoff : isOfflineContext context
    · refine ⟨[offlineEntry command context s], ?_, ?_, ?_⟩
      · simp only [execute, hoff, if_true, offlineBranch]
        exact (executeOffline_queue command context s).1
      · simp
      · intro e he
        rcases List.mem_singleton.mp he with rfl
        obtain ⟨_, _, _, _, _, _, hid⟩ := executeOffline_frame command context s
        simp [execute, hoff, offlineBranch, hid, offlineEntry]
    · exact ⟨[], by simp [execute, hoff], by simp, by simp⟩
  | succ n ih =>
    by_cases hoff : isOfflineContext context
    · refine ⟨[offlineEntry command context s], ?_, ?_, ?_⟩
      · simp only [execute, hoff, if_true, offlineBranch]
        exact (executeOffline_queue command context s).1
      · simp
      · intro e he
        rcases List.mem_singleton.mp he with rfl
        obtain ⟨_, _, _, _, _, _, hid⟩ := executeOffline_frame command context s
        simp [execute, hoff, offlineBranch, hid, offlineEntry]
    · obtain ⟨ht1, ht2, ht3, ht4, ht5, ht6, ht7, ht8, ht9, ht10⟩ :=
        transitionTo_frame .VALIDATING s
      obtain ⟨ha1, ha2, ha3, ha4, ha5, ha6, ha7, ha8⟩ :=
        attemptBody_frame command context s.now (transitionTo .VALIDATING s).1
      rcases hab : (attemptBody command context s.now
          (transitionTo .VALIDATING s).1).1 with e | res
      · obtain ⟨he1, he2, he3, he4, he5, he6, he7, he8, he9, he10⟩ :=
          errorPath_frame (attemptBody command context s.now
            (transitionTo .VALIDATING s).1).2.1
        by_cases hkey : command.idempotencyKey = ""
        · refine ⟨[], ?_, by simp, by simp⟩
          simp [execute, hoff, hab, hkey, canRetry, he2, ha2, ht2]
        · have hcond : (command.idempotencyKey != "" && canRetry command) = true := by
            simp [canRetry, hkey]
          obtain ⟨tail, htl1, htl2, htl3⟩ :=
            ih (errorPath (attemptBody command context s.now
              (transitionTo .VALIDATING s).1).2.1).1
          refine ⟨tail, ?_, htl2, ?_⟩
          · simp only [execute, hoff, Bool.false_eq_true, if_false, hab, hcond,
              if_true]
            rw [htl1, he2, ha2, ht2]
          · intro e' he'
            obtain ⟨hlo, hhi, hcmd⟩ := htl3 e' he'
            refine ⟨?_, ?_, hcmd⟩
            · calc s.idCounter = (transitionTo .VALIDATING s).1.idCounter :=
                    ht7.symm
                _ ≤ (attemptBody command context s.now
                      (transitionTo .VALIDATING s).1).2.1.idCounter := ha8
                _ = (errorPath (attemptBody command context s.now
                      (transitionTo .VALIDATING s).1).2.1).1.idCounter :=
                    he7.symm
                _ ≤ e'.id := hlo
            · simpa only [execute, hoff, Bool.false_eq_true, if_false, hab,
                hcond, if_true] using hhi
      · refine ⟨[], ?_, by simp, by simp⟩
        simp [execute, hoff, hab, ha2, ht2]

/-! ### Characterizations of the pipeline attempt -/

lemma attemptBody_success (command : ResourceRegistryCommand)
    (context : ExecutionContext) (startTime : Nat) (s : Registry)
    (hts : s.timeoutSchedule = [])
    (hvalid : (validate command).valid = true) :
    ∃ result,
      (attemptBody command context startTime s).1 = .ok result ∧
      result.status = "success" ∧
      result.commandId = command.id ∧
      (attemptBody command context startTime s).2.1.state = .IDLE := by
  simp [attemptBody, takeTimeout, hts, hvalid, transitionTo, recordMetric,
    generateId, deliver, route, process, ResultData.commandIdOf]

lemma attemptBody_invalid (command : ResourceRegistryCommand)
    (context : ExecutionContext) (startTime : Nat) (s : Registry)
    (hts : s.timeoutSchedule = [])
    (hinv : (validate command).valid = false) :
    attemptBody command context startTime s =
      (.error (.validationFailed (validate command).errors), s, []) := by
  simp [attemptBody, takeTimeout, hts, hinv]

/-! ### Claim theorems -/

/-- Claim C1 (amended): for a command missing required fields, executed with
an online context and no stage timeout, validation produces exactly one
field-level error per missing field and nothing else; the `execute` call
itself terminates with that validation failure exactly when the idempotency
key is among the missing fields; when an idempotency key is present, the
unconditional retry path re-runs the failing validation forever, so
`execute` exhausts every retry budget instead of failing. -/
theorem claim1_missing_fields (command : ResourceRegistryCommand)
    (context : ExecutionContext) (s : Registry)
    (hoff : isOfflineContext context = false)
    (hts : s.timeoutSchedule = [])
    (hmiss : missingFields command ≠ []) :
    (validate command).errors.map (·.field) = missingFields command ∧
    (command.idempotencyKey = "" →
      ∀ fuel, (execute (fuel + 1) command context s).1 =
        .thrown (.validationFailed (validate command).errors)) ∧
    (command.idempotencyKey ≠ "" →
      ∀ fuel, (execute fuel command context s).1 = .outOfFuel) := by
  have hinv : (validate command).valid = false := by
    rcases h : (validate command).valid with _ | _
    · rfl
    · exact absurd ((validate_valid_iff command).mp h) hmiss
  refine ⟨validate_errors_fields command, ?_, ?_⟩
  · intro hkey fuel
    obtain ⟨ht1, ht2, ht3, ht4, ht5, ht6, ht7, ht8, ht9, ht10⟩ :=
      transitionTo_frame .VALIDATING s
    have hab := attemptBody_invalid command context s.now
      (transitionTo .VALIDATING s).1 (ht8.trans hts) hinv
    simp [execute, hoff, hab, hkey, canRetry]
  · intro hkey
    intro fuel
    induction fuel generalizing s with
    | zero => simp [execute, hoff]
    | succ n ih =>
      obtain ⟨ht1, ht2, ht3, ht4, ht5, ht6, ht7, ht8, ht9, ht10⟩ :=
        transitionTo_frame .VALIDATING s
      have hab := attemptBody_invalid command context s.now
        (transitionTo .VALIDATING s).1 (ht8.trans hts) hinv
      have hcond : (command.idempotencyKey != "" && canRetry command) = true := by
        simp [canRetry, hkey]
      have hps : (errorPath (transitionTo .VALIDATING s).1).1.timeoutSchedule = [] := by
        obtain ⟨_, _, _, _, _, _, _, he8, _, _⟩ :=
          errorPath_frame (transitionTo .VALIDATING s).1
        exact he8.trans (ht8.trans hts)
      have := ih (errorPath (transitionTo .VALIDATING s).1).1 hps
      simp [execute, hoff, hab, hcond, this]

/-- Claim C1 counterexample: the claim predicts that executing the command
`{id := "", type := "noop", idempotencyKey := "k2"}` online fails with a
validation failure listing exactly `id`; instead the keyed retry path loops
and the call exhausts its retry budget without ever failing. -/
theorem claim1_counterexample :
    missingFields cmdNoId = ["id"] ∧
    (execute 3 cmdNoId ctxOnline initialRegistry).1 ≠
      Outcome.thrown (.validationFailed
        [{ field := "id", message := "Required", code := "REQUIRED" }]) ∧
    (execute 3 cmdNoId ctxOnline initialRegistry).1 = .outOfFuel := by
  decide

/-- Claim C1 witness: concrete instances of both halves of the amended
claim, at a command missing only the idempotency key and at a command
missing `id` but carrying a key. -/
theorem claim1_witness :
    ((validate cmdNoKey).errors.map (·.field) = ["idempotencyKey"] ∧
      (execute 1 cmdNoKey ctxOnline initialRegistry).1 =
        .thrown (.validationFailed (validate cmdNoKey).errors)) ∧
    (execute 7 cmdNoId ctxOnline initialRegistry).1 = .outOfFuel := by
  refine ⟨⟨?_, ?_⟩, ?_⟩
  · decide
  · exact (claim1_missing_fields cmdNoKey ctxOnline initialRegistry
      (by decide) rfl (by decide)).2.1 rfl 0
  · exact (claim1_missing_fields cmdNoId ctxOnline initialRegistry
      (by decide) rfl (by decide)).2.2 (by decide) 7

/-- Claim C2: a command with `id`, `type` and `idempotencyKey` all present,
executed with an online context while every stage succeeds, yields a result
with status `success` and `commandId` equal to the command's id, and the
executor ends in `IDLE`. -/
theorem claim2_success (fuel : Nat) (command : ResourceRegistryCommand)
    (context : ExecutionContext) (s : Registry)
    (hoff : isOfflineContext context = false)
    (hts : s.timeoutSchedule = [])
    (hvalid : missingFields command = []) :
    ∃ result,
      (execute (fuel + 1) command context s).1 = .ok result ∧
      result.status = "success" ∧
      result.commandId = command.id ∧
      getState (execute (fuel + 1) command context s).2.1 = .IDLE := by
  obtain ⟨ht1, ht2, ht3, ht4, ht5, ht6, ht7, ht8, ht9, ht10⟩ :=
    transitionTo_frame .VALIDATING s
  obtain ⟨result, h1, h2, h3, h4⟩ := attemptBody_success command context s.now
    (transitionTo .VALIDATING s).1 (ht8.trans hts)
    ((validate_valid_iff command).mpr hvalid)
  refine ⟨result, ?_, h2, h3, ?_⟩
  · simp [execute, hoff, h1]
  · simp [execute, hoff, h1, getState, h4]

/-- Claim C2 witness: the spec's concrete scenario
`{id:"cmd-1", type:"noop", idempotencyKey:"k1"}` on a fresh executor. -/
theorem claim2_witness :
    ∃ result,
      (execute 1 cmdNoop ctxOnline initialRegistry).1 = .ok result ∧
      result.status = "success" ∧
      result.commandId = "cmd-1" ∧
      getState (execute 1 cmdNoop ctxOnline initialRegistry).2.1 = .IDLE :=
  claim2_success 0 cmdNoop ctxOnline initialRegistry (by decide) rfl (by decide)

/-- Claim C3: with an offline context, `execute` transitions only to
`OFFLINE` (never `VALIDATING` or `PROCESSING`), returns a `partial` result,
and appends exactly one queue entry whose sequence number strictly exceeds
every previously queued one. -/
theorem claim3_offline (fuel : Nat) (command : ResourceRegistryCommand)
    (context : ExecutionContext) (s : Registry)
    (hoff : isOfflineContext context = true)
    (hseq : ∀ e ∈ s.offlineQueue, e.sequenceNumber ≤ s.sequenceCounter) :
    (∃ result, (execute fuel command context s).1 = .ok result ∧
      result.status = "partial") ∧
    (∀ a b, Event.transition a b ∈ (execute fuel command context s).2.2 →
      b = .OFFLINE) ∧
    (execute fuel command context s).2.1.offlineQueue =
      s.offlineQueue ++ [offlineEntry command context s] ∧
    (∀ e ∈ s.offlineQueue,
      e.sequenceNumber < (offlineEntry command context s).sequenceNumber) := by
  have hred : execute fuel command context s = offlineBranch command context s := by
    cases fuel <;> simp [execute, hoff]
  rw [hred]
  refine ⟨⟨(executeOffline command context s).1, rfl, ?_⟩, ?_, ?_, ?_⟩
  · simp [executeOffline, transitionTo, recordMetric, generateId]
  · intro a b hmem
    simp only [offlineBranch, executeOffline, transitionTo, recordMetric,
      generateId, List.mem_cons, List.mem_map] at hmem
    rcases hmem with h | ⟨l, _, h⟩
    · cases h
      rfl
    · cases h
  · exact (executeOffline_queue command context s).1
  · intro e he
    have := hseq e he
    simp only [offlineEntry]
    omega

/-- Claim C3 witness: a fresh executor with an `isOffline = true` context. -/
theorem claim3_witness :
    (∃ result, (execute 1 cmdNoop ctxOffline initialRegistry).1 = .ok result ∧
      result.status = "partial") ∧
    (∀ a b,
      Event.transition a b ∈ (execute 1 cmdNoop ctxOffline initialRegistry).2.2 →
      b = .OFFLINE) ∧
    (execute 1 cmdNoop ctxOffline initialRegistry).2.1.offlineQueue =
      initialRegistry.offlineQueue ++
        [offlineEntry cmdNoop ctxOffline initialRegistry] ∧
    (∀ e ∈ initialRegistry.offlineQueue,
      e.sequenceNumber <
        (offlineEntry cmdNoop ctxOffline initialRegistry).sequenceNumber) :=
  claim3_offline 1 cmdNoop ctxOffline initialRegistry (by decide)
    (by simp [initialRegistry, Registry.new])

/-- Claim C10: `dispose` leaves the offline queue, the sequence counter and
every other persistent field untouched; it only clears the two listener
lists, sets the state to `IDLE` (recording the transition metric that every
transition records), and performs the no-op queue persistence. -/
theorem claim10_dispose_frame (s : Registry) :
    (dispose s).1.offlineQueue = s.offlineQueue ∧
    (dispose s).1.sequenceCounter = s.sequenceCounter ∧
    (dispose s).1.stateListeners = [] ∧
    (dispose s).1.errorListeners = [] ∧
    getState (dispose s).1 = .IDLE ∧
    (dispose s).1.config = s.config ∧
    (dispose s).1.idCounter = s.idCounter ∧
    (dispose s).1.now = s.now ∧
    (dispose s).1.nextListenerId = s.nextListenerId ∧
    (dispose s).1.timeoutSchedule = s.timeoutSchedule ∧
    (dispose s).1.metrics = s.metrics ++
      [{ name := "state_transition", value := 1, unit := "count",
         timestamp := s.now,
         tags := [("from", s.state.label), ("to", "IDLE")] }] := by
  simp [dispose, transitionTo, recordMetric, getState, CellState.label]

/-! ### maxRetries plays no role in execution -/



lemma withMaxRetries_transitionTo (k : Nat) (st : CellState) (s : Registry) :
    transitionTo st (withMaxRetries k s) =
      (withMaxRetries k (transitionTo st s).1, (transitionTo st s).2) := rfl

lemma withMaxRetries_executeOffline (k : Nat)
    (command : ResourceRegistryCommand) (context : ExecutionContext)
    (s : Registry) :
    executeOffline command context (withMaxRetries k s) =
      ((executeOffline command context s).1,
       withMaxRetries k (executeOffline command context s).2.1,
       (executeOffline command context s).2.2) := rfl

lemma withMaxRetries_takeTimeout (k : Nat) (s : Registry) :
    takeTimeout (withMaxRetries k s) =
      ((takeTimeout s).1, withMaxRetries k (takeTimeout s).2) := by
  cases hts : s.timeoutSchedule <;>
    simp [takeTimeout, withMaxRetries, hts]

lemma withMaxRetries_timeoutMs (k : Nat) (s : Registry) :
    (withMaxRetries k s).config.timeoutMs = s.config.timeoutMs := rfl

lemma withMaxRetries_attemptBody (k : Nat)
    (command : ResourceRegistryCommand) (context : ExecutionContext)
    (startTime : Nat) (s : Registry) :
    attemptBody command context startTime (withMaxRetries k s) =
      ((attemptBody command context startTime s).1,
       withMaxRetries k (attemptBody command context startTime s).2.1,
       (attemptBody command context startTime s).2.2) := by
  cases hts : s.timeoutSchedule with
  | nil =>
    by_cases hv : (validate command).valid <;>
      simp [attemptBody, takeTimeout, withMaxRetries, hts, hv, transitionTo,
        recordMetric, generateId, deliver]
  | cons b rest =>
    cases b with
    | true => simp [attemptBody, takeTimeout, withMaxRetries, hts]
    | false =>
      by_cases hv : (validate command).valid
      · cases rest with
        | nil =>
          simp [attemptBody, takeTimeout, withMaxRetries, hts, hv,
            transitionTo, recordMetric, generateId, deliver]
        | cons b2 r2 =>
          cases b2 <;>
            simp [attemptBody, takeTimeout, withMaxRetries, hts, hv,
              transitionTo, recordMetric, generateId, deliver]
      · simp [attemptBody, takeTimeout, withMaxRetries, hts, hv]

lemma withMaxRetries_errorPath (k : Nat) (s : Registry) :
    errorPath (withMaxRetries k s) =
      (withMaxRetries k (errorPath s).1, (errorPath s).2) := rfl

lemma withMaxRetries_retryDelay (k : Nat) (config : ResourceRegistryConfig) :
    retryDelay { config with maxRetries := k } = retryDelay config := rfl

lemma retryDelay_withMaxRetries (k : Nat) (s : Registry) :
    retryDelay (withMaxRetries k s).config = retryDelay s.config := rfl

lemma withMaxRetries_execute (k : Nat) (fuel : Nat)
    (command : ResourceRegistryCommand) (context : ExecutionContext)
    (s : Registry) :
    execute fuel command context (withMaxRetries k s) =
      ((execute fuel command context s).1,
       withMaxRetries k (execute fuel command context s).2.1,
       (execute fuel command context s).2.2) := by
  induction fuel generalizing s with
  | zero =>
    by_cases hoff : isOfflineContext context <;>
      simp [execute, hoff, offlineBranch, withMaxRetries_executeOffline]
  | succ n ih =>
    by_cases hoff : isOfflineContext context
    · simp [execute, hoff, offlineBranch, withMaxRetries_executeOffline]
    · have hnow : (withMaxRetries k s).now = s.now := rfl
      rcases hab : (attemptBody command context s.now
          (transitionTo .VALIDATING s).1).1 with e | res
      · by_cases hkey : command.idempotencyKey = ""
        · simp [execute, hoff, hnow, withMaxRetries_transitionTo,
            withMaxRetries_attemptBody, hab, hkey, canRetry,
            withMaxRetries_errorPath]
        · have hcond : (command.idempotencyKey != "" && canRetry command)
              = true := by simp [canRetry, hkey]
          simp only [execute, hoff, Bool.false_eq_true, if_false, hnow,
            withMaxRetries_transitionTo, withMaxRetries_attemptBody, hab,
            hcond, if_true, withMaxRetries_errorPath, ih,
            retryDelay_withMaxRetries]
      · simp [execute, hoff, hnow, withMaxRetries_transitionTo,
          withMaxRetries_attemptBody, hab]

/-- Claim C7: retry eligibility is unconditional (`canRetry` is constantly
`true`); a failed pipeline attempt of a command carrying an idempotency key
makes `execute` re-invoke itself with the same command and context; and
`config.maxRetries` has no influence whatsoever on the outcome, the final
state (other than the configuration field itself) or the emitted trace of
`execute` — in particular no retry bound is derived from it. -/
theorem claim7_unconditional_retry :
    (∀ command, canRetry command = true) ∧
    (∀ fuel command context s e,
      isOfflineContext context = false →
      command.idempotencyKey ≠ "" →
      (attemptBody command context s.now
        (transitionTo .VALIDATING s).1).1 = .error e →
      (execute (fuel + 1) command context s).1 =
        (execute fuel command context
          (errorPath (attemptBody command context s.now
            (transitionTo .VALIDATING s).1).2.1).1).1) ∧
    (∀ fuel command context s k,
      execute fuel command context (withMaxRetries k s) =
        ((execute fuel command context s).1,
         withMaxRetries k (execute fuel command context s).2.1,
         (execute fuel command context s).2.2)) := by
  refine ⟨fun _ => rfl, ?_, ?_⟩
  · intro fuel command context s e hoff hkey hab
    have hcond : (command.idempotencyKey != "" && canRetry command) = true := by
      simp [canRetry, hkey]
    simp [execute, hoff, hab, hcond]
  · intro fuel command context s k
    exact withMaxRetries_execute k fuel command context s

/-- Claim C7 witness: the three components at concrete inputs — the
validation failure of the keyed command `cmdNoId` triggers a retry that
re-invokes `execute` on the same command and context, and changing
`maxRetries` to 99 changes nothing observable. -/
theorem claim7_witness :
    canRetry cmdNoop = true ∧
    (execute 1 cmdNoId ctxOnline initialRegistry).1 =
      (execute 0 cmdNoId ctxOnline
        (errorPath (attemptBody cmdNoId ctxOnline initialRegistry.now
          (transitionTo .VALIDATING initialRegistry).1).2.1).1).1 ∧
    execute 2 cmdNoId ctxOnline (withMaxRetries 99 initialRegistry) =
      ((execute 2 cmdNoId ctxOnline initialRegistry).1,
       withMaxRetries 99 (execute 2 cmdNoId ctxOnline initialRegistry).2.1,
       (execute 2 cmdNoId ctxOnline initialRegistry).2.2) := by
  refine ⟨claim7_unconditional_retry.1 cmdNoop, ?_, ?_⟩
  · exact claim7_unconditional_retry.2.1 0 cmdNoId ctxOnline initialRegistry
      (RegistryError.validationFailed (validate cmdNoId).errors)
      (by decide) (by decide) rfl
  · exact claim7_unconditional_retry.2.2 2 cmdNoId ctxOnline initialRegistry 99

/-- Claim C8: the backoff delay computed before each retry is
`initialBackoffMs * backoffMultiplier ^ 0`, i.e. exactly `initialBackoffMs`;
every `wait` in any `execute` trace carries exactly that delay, so the delay
never escalates across attempts. -/
theorem claim8_static_backoff :
    (∀ config : ResourceRegistryConfig,
      retryDelay config =
        config.networkConfig.initialBackoffMs *
          config.networkConfig.backoffMultiplier ^ 0 ∧
      retryDelay config = config.networkConfig.initialBackoffMs) ∧
    (∀ fuel command context s d,
      Event.wait d ∈ (execute fuel command context s).2.2 →
      d = s.config.networkConfig.initialBackoffMs) := by
  constructor
  · intro config
    exact ⟨rfl, by simp [retryDelay]⟩
  · intro fuel command context s d hw
    have h := (execute_events_good fuel command context s _ hw).2.2 d rfl
    simpa [retryDelay] using h

/-- Claim C8 witness: the single retry of a failing keyed command waits
exactly the default `initialBackoffMs` of 1000 ms. -/
theorem claim8_witness :
    Event.wait 1000 ∈ (execute 2 cmdNoId ctxOnline initialRegistry).2.2 ∧
    (1000 : Nat) = initialRegistry.config.networkConfig.initialBackoffMs := by
  refine ⟨by decide, ?_⟩
  exact claim8_static_backoff.2 2 cmdNoId ctxOnline initialRegistry 1000
    (by decide)

/-! ### The idempotency-key queue invariant (conditional) -/





lemma keyedQueue_execute (fuel : Nat) (command : ResourceRegistryCommand)
    (context : ExecutionContext) (s : Registry)
    (hq : KeyedQueue s) (hkey : command.idempotencyKey ≠ "") :
    KeyedQueue (execute fuel command context s).2.1 := by
  obtain ⟨tail, h1, _, h3⟩ := execute_queue fuel command context s
  intro e he
  rw [h1] at he
  rcases List.mem_append.mp he with h | h
  · exact hq e h
  · rw [(h3 e h).2.2]
    exact hkey

lemma keyedQueue_executeOffline (command : ResourceRegistryCommand)
    (context : ExecutionContext) (s : Registry)
    (hq : KeyedQueue s) (hkey : command.idempotencyKey ≠ "") :
    KeyedQueue (executeOffline command context s).2.1 := by
  intro e he
  rw [(executeOffline_queue command context s).1] at he
  rcases List.mem_append.mp he with h | h
  · exact hq e h
  · rcases List.mem_singleton.mp h with rfl
    exact hkey

lemma keyedQueue_syncLoop (fuel : Nat) (entries : List OfflineQueueEntry)
    (synced failed : Nat) (s : Registry)
    (hq : KeyedQueue s)
    (hent : ∀ e ∈ entries, e.command.idempotencyKey ≠ "") :
    KeyedQueue (syncLoop fuel entries synced failed s).2.1 := by
  induction entries generalizing synced failed s with
  | nil => exact hq
  | cons entry rest ih =>
    have hq1 : KeyedQueue (execute fuel entry.command
        { entry.context with isOffline := false } s).2.1 :=
      keyedQueue_execute _ _ _ _ hq (hent entry (by simp))
    have hrest : ∀ e ∈ rest, e.command.idempotencyKey ≠ "" :=
      fun e he => hent e (by simp [he])
    rcases hout : (execute fuel entry.command
        { entry.context with isOffline := false } s).1 with res | err
    · simp only [syncLoop, hout]
      exact ih _ _ _ (by
        intro e he
        simp only [List.mem_filter] at he
        exact hq1 e he.1) hrest
    · simp only [syncLoop, hout]
      exact ih _ _ _ (by
        intro e he
        simp only [List.mem_map] at he
        obtain ⟨x, hx, hxe⟩ := he
        by_cases hid : x.id = (entry : OfflineQueueEntry).id <;>
          simp only [hid, if_true, if_false] at hxe <;>
          rw [← hxe] <;> exact hq1 x hx) hrest
    · simp only [syncLoop, hout]
      exact hq1

lemma keyedQueue_sync (fuel : Nat) (s : Registry) (hq : KeyedQueue s) :
    KeyedQueue (sync fuel s).2.1 := by
  have hqt : KeyedQueue (transitionTo .SYNCING s).1 := by
    intro e he
    rw [(transitionTo_frame .SYNCING s).2.1] at he
    exact hq e he
  have hsorted : ∀ e ∈ List.insertionSort entryLe
      (transitionTo .SYNCING s).1.offlineQueue,
      e.command.idempotencyKey ≠ "" := by
    intro e he
    exact hqt e ((List.perm_insertionSort entryLe _).mem_iff.mp he)
  have hloop := keyedQueue_syncLoop fuel
    (List.insertionSort entryLe (transitionTo .SYNCING s).1.offlineQueue)
    0 0 (transitionTo .SYNCING s).1 hqt hsorted
  rcases hq1 : (syncLoop fuel
      (List.insertionSort entryLe (transitionTo .SYNCING s).1.offlineQueue)
      0 0 (transitionTo .SYNCING s).1).1 with _ | ⟨sy, fl⟩
  · simpa [sync, hq1] using hloop
  · intro e he
    simp only [sync, hq1] at he
    rw [(transitionTo_frame .IDLE _).2.1] at he
    exact hloop e he

/-- Claim C6 (amended): the source never checks the idempotency key on the
offline path, so the stated invariant is a precondition on callers, not a
property the code enforces.  It holds conditionally: if every command
submitted through `execute`/`executeOffline` carries a non-empty
idempotency key, then every entry in the offline queue after any sequence
of `execute`, `executeOffline`, `sync`, listener and `dispose` operations
wraps a command with a non-empty idempotency key (`sync` preserves this
unconditionally because it only re-queues commands already in the queue). -/
theorem claim6_keyed_queue (ops : List Op) (s : Registry)
    (hs : KeyedQueue s) (hops : ∀ op ∈ ops, op.keyedInput) :
    KeyedQueue (applyOps ops s).1 := by
  induction ops generalizing s with
  | nil => exact hs
  | cons op rest ih =>
    have hop := hops op (by simp)
    have hrest : ∀ op' ∈ rest, op'.keyedInput :=
      fun op' h => hops op' (by simp [h])
    have hstep : KeyedQueue (applyOp op s).1 := by
      cases op with
      | execute fuel command context =>
        exact keyedQueue_execute fuel command context s hs hop
      | executeOffline command context =>
        exact keyedQueue_executeOffline command context s hs hop
      | sync fuel => exact keyedQueue_sync fuel s hs
      | dispose =>
        intro e he
        simp only [applyOp, dispose, transitionTo, recordMetric] at he
        exact hs e he
      | onStateChange => exact hs
      | onError => exact hs
      | unsubscribeState l => exact hs
      | unsubscribeError l => exact hs
    simp only [applyOps]
    exact ih (applyOp op s).1 hstep hrest

/-- Claim C6 counterexample: a single `executeOffline` call with a command
whose idempotency key is missing queues an entry wrapping a key-less
command, violating the invariant as stated. -/
theorem claim6_counterexample :
    ((applyOps [Op.executeOffline cmdNoKey ctxOffline]
        initialRegistry).1.offlineQueue.map
      (fun e => e.command.idempotencyKey)) = [""] := by
  decide

/-- Claim C6 witness: starting from an empty queue, a keyed offline
execution followed by a sync keeps every queued command keyed. -/
theorem claim6_witness :
    KeyedQueue (applyOps
      [Op.executeOffline cmdNoop ctxOffline, Op.sync 1]
      initialRegistry).1 :=
  claim6_keyed_queue [Op.executeOffline cmdNoop ctxOffline, Op.sync 1]
    initialRegistry
    (by intro e he; simp [initialRegistry, Registry.new] at he)
    (by intro op hop
        rcases List.mem_cons.mp hop with h | h
        · subst h
          show cmdNoop.idempotencyKey ≠ ""
          decide
        · rcases List.mem_cons.mp h with h2 | h2
          · subst h2
            trivial
          · exact absurd h2 (List.not_mem_nil op))

/-! ### Listener bookkeeping across operations -/

lemma syncLoop_listeners (fuel : Nat) (entries : List OfflineQueueEntry)
    (synced failed : Nat) (s : Registry) :
    (syncLoop fuel entries synced failed s).2.1.stateListeners =
      s.stateListeners ∧
    (syncLoop fuel entries synced failed s).2.1.errorListeners =
      s.errorListeners ∧
    (syncLoop fuel entries synced failed s).2.1.nextListenerId =
      s.nextListenerId ∧
    (syncLoop fuel entries synced failed s).2.1.config = s.config := by
  induction entries generalizing synced failed s with
  | nil => exact ⟨rfl, rfl, rfl, rfl⟩
  | cons entry rest ih =>
    obtain ⟨hf1, hf2, hf3, hf4, hf5, hf6⟩ := execute_frame fuel entry.command
      { entry.context with isOffline := false } s
    rcases hout : (execute fuel entry.command
        { entry.context with isOffline := false } s).1 with res | err
    · obtain ⟨hi1, hi2, hi3, hi4⟩ := ih (synced + 1) failed
        { (execute fuel entry.command
            { entry.context with isOffline := false } s).2.1 with
          offlineQueue := (execute fuel entry.command
            { entry.context with isOffline := false } s).2.1.offlineQueue.filter
              (fun e => e.id != entry.id) }
      simp only [syncLoop, hout]
      rw [hi1, hi2, hi3, hi4]
      exact ⟨hf2, hf3, hf4, hf1⟩
    · obtain ⟨hi1, hi2, hi3, hi4⟩ := ih synced (failed + 1)
        { (execute fuel entry.command
            { entry.context with isOffline := false } s).2.1 with
          offlineQueue := (execute fuel entry.command
            { entry.context with isOffline := false } s).2.1.offlineQueue.map
              (fun e => if e.id = entry.id then
                { e with retryCount := e.retryCount + 1 } else e) }
      simp only [syncLoop, hout]
      rw [hi1, hi2, hi3, hi4]
      exact ⟨hf2, hf3, hf4, hf1⟩
    · simp only [syncLoop, hout]
      exact ⟨hf2, hf3, hf4, hf1⟩

lemma syncLoop_notify (fuel : Nat) (entries : List OfflineQueueEntry)
    (synced failed : Nat) (s : Registry) (l : Nat) (st : CellState) :
    Event.notify l st ∈ (syncLoop fuel entries synced failed s).2.2 →
      l ∈ s.stateListeners := by
  induction entries generalizing synced failed s with
  | nil => simp [syncLoop]
  | cons entry rest ih =>
    intro hmem
    obtain ⟨hf1, hf2, hf3, hf4, hf5, hf6⟩ := execute_frame fuel entry.command
      { entry.context with isOffline := false } s
    rcases hout : (execute fuel entry.command
        { entry.context with isOffline := false } s).1 with res | err <;>
      simp only [syncLoop, hout, List.mem_cons, List.mem_append] at hmem
    · rcases hmem with h | (h | (h | h))
      · cases h
      · exact (execute_events_good fuel entry.command
          { entry.context with isOffline := false } s _ h).2.1 l st rfl
      · cases h
      · have := ih _ _ _ h
        rw [hf2] at this
        exact this
    · rcases hmem with h | (h | (h | h))
      · cases h
      · exact (execute_events_good fuel entry.command
          { entry.context with isOffline := false } s _ h).2.1 l st rfl
      · cases h
      · have := ih _ _ _ h
        rw [hf2] at this
        exact this
    · rcases hmem with h | h
      · cases h
      · exact (execute_events_good fuel entry.command
          { entry.context with isOffline := false } s _ h).2.1 l st rfl

lemma sync_listeners (fuel : Nat) (s : Registry) :
    (sync fuel s).2.1.stateListeners = s.stateListeners ∧
    (sync fuel s).2.1.errorListeners = s.errorListeners ∧
    (sync fuel s).2.1.nextListenerId = s.nextListenerId := by
  obtain ⟨ht1, ht2, ht3, ht4, ht5, ht6, ht7, ht8, ht9, ht10⟩ :=
    transitionTo_frame .SYNCING s
  obtain ⟨hl1, hl2, hl3, hl4⟩ := syncLoop_listeners fuel
    (List.insertionSort entryLe (transitionTo .SYNCING s).1.offlineQueue)
    0 0 (transitionTo .SYNCING s).1
  rcases hq : (syncLoop fuel
      (List.insertionSort entryLe (transitionTo .SYNCING s).1.offlineQueue)
      0 0 (transitionTo .SYNCING s).1).1 with _ | ⟨sy, fl⟩
  · simp only [sync, hq]
    rw [hl1, hl2, hl3, ht4, ht5, ht6]
    exact ⟨rfl, rfl, rfl⟩
  · simp only [sync, hq]
    obtain ⟨ht1', ht2', ht3', ht4', ht5', ht6', ht7', ht8', ht9', ht10'⟩ :=
      transitionTo_frame .IDLE (syncLoop fuel
        (List.insertionSort entryLe (transitionTo .SYNCING s).1.offlineQueue)
        0 0 (transitionTo .SYNCING s).1).2.1
    rw [ht4', ht5', ht6', hl1, hl2, hl3, ht4, ht5, ht6]
    exact ⟨rfl, rfl, rfl⟩

lemma sync_notify (fuel : Nat) (s : Registry) (l : Nat) (st : CellState) :
    Event.notify l st ∈ (sync fuel s).2.2 → l ∈ s.stateListeners := by
  intro hmem
  obtain ⟨ht1, ht2, ht3, ht4, ht5, ht6, ht7, ht8, ht9, ht10⟩ :=
    transitionTo_frame .SYNCING s
  obtain ⟨hl1, hl2, hl3, hl4⟩ := syncLoop_listeners fuel
    (List.insertionSort entryLe (transitionTo .SYNCING s).1.offlineQueue)
    0 0 (transitionTo .SYNCING s).1
  rcases hq : (syncLoop fuel
      (List.insertionSort entryLe (transitionTo .SYNCING s).1.offlineQueue)
      0 0 (transitionTo .SYNCING s).1).1 with _ | ⟨sy, fl⟩ <;>
    simp only [sync, hq, List.mem_append] at hmem
  · rcases hmem with h | h
    · have := transitionTo_events_good .SYNCING s _ h
      exact this.2.1 l st rfl
    · have := syncLoop_notify fuel _ 0 0 _ l st h
      rw [ht4] at this
      exact this
  · rcases hmem with (h | h) | h
    · have := transitionTo_events_good .SYNCING s _ h
      exact this.2.1 l st rfl
    · have := syncLoop_notify fuel _ 0 0 _ l st h
      rw [ht4] at this
      exact this
    · have := transitionTo_events_good .IDLE _ _ h
      have h2 := this.2.1 l st rfl
      rw [hl1, ht4] at h2
      exact h2



lemma applyOp_notify (op : Op) (s : Registry) (l : Nat) (st : CellState) :
    Event.notify l st ∈ (applyOp op s).2 → l ∈ s.stateListeners := by
  cases op with
  | execute fuel command context =>
    intro h
    exact (execute_events_good fuel command context s _ h).2.1 l st rfl
  | executeOffline command context =>
    intro h
    exact (executeOffline_events_good command context s _ h).2.1 l st rfl
  | sync fuel => exact sync_notify fuel s l st
  | dispose =>
    intro h
    simp only [applyOp, dispose, transitionTo, recordMetric,
      List.mem_cons, List.map_nil, List.not_mem_nil, or_false] at h
    cases h
  | onStateChange => intro h; simp [applyOp] at h
  | onError => intro h; simp [applyOp] at h
  | unsubscribeState l' => intro h; simp [applyOp] at h
  | unsubscribeError l' => intro h; simp [applyOp] at h

lemma applyOp_floor (op : Op) (s : Registry) (n : Nat)
    (hfl : ListenerFloor n s) : ListenerFloor n (applyOp op s).1 := by
  obtain ⟨hs, he, hn⟩ := hfl
  cases op with
  | execute fuel command context =>
    obtain ⟨_, h2, h3, h4, _, _⟩ := execute_frame fuel command context s
    simp only [applyOp]
    exact ⟨by rw [h2]; exact hs, by rw [h3]; exact he, by rw [h4]; exact hn⟩
  | executeOffline command context =>
    obtain ⟨_, h2, h3, h4, _, _, _⟩ := executeOffline_frame command context s
    simp only [applyOp]
    exact ⟨by rw [h2]; exact hs, by rw [h3]; exact he, by rw [h4]; exact hn⟩
  | sync fuel =>
    obtain ⟨h2, h3, h4⟩ := sync_listeners fuel s
    simp only [applyOp]
    exact ⟨by rw [h2]; exact hs, by rw [h3]; exact he, by rw [h4]; exact hn⟩
  | dispose =>
    refine ⟨?_, ?_, ?_⟩ <;>
      simp only [applyOp, dispose, transitionTo, recordMetric]
    · intro l h
      exact absurd h (List.not_mem_nil l)
    · intro l h
      exact absurd h (List.not_mem_nil l)
    · exact hn
  | onStateChange =>
    refine ⟨?_, he, ?_⟩ <;> simp only [applyOp, onStateChange]
    · intro l h
      rcases List.mem_append.mp h with h' | h'
      · exact hs l h'
      · rcases List.mem_singleton.mp h' with rfl
        exact hn
    · omega
  | onError =>
    refine ⟨hs, ?_, ?_⟩ <;> simp only [applyOp, onError]
    · intro l h
      rcases List.mem_append.mp h with h' | h'
      · exact he l h'
      · rcases List.mem_singleton.mp h' with rfl
        exact hn
    · omega
  | unsubscribeState l' =>
    exact ⟨fun l h => hs l (List.mem_of_mem_filter h), he, hn⟩
  | unsubscribeError l' =>
    exact ⟨hs, fun l h => he l (List.mem_of_mem_filter h), hn⟩

lemma applyOps_notify (ops : List Op) (s : Registry) (n l : Nat)
    (st : CellState) (hfl : ListenerFloor n s) :
    Event.notify l st ∈ (applyOps ops s).2 → n ≤ l := by
  induction ops generalizing s with
  | nil => simp [applyOps]
  | cons op rest ih =>
    intro hmem
    simp only [applyOps, List.mem_append] at hmem
    rcases hmem with h | h
    · exact hfl.1 l (applyOp_notify op s l st h)
    · exact ih (applyOp op s).1 (applyOp_floor op s n hfl) h

/-- Claim C9: after `dispose`, `getState` reports `IDLE`; the transition
performed inside `dispose` notifies nobody (the listener lists are cleared
first), and no listener registered before `dispose` is ever notified by any
subsequent sequence of operations, because later registrations only issue
fresh handles. -/
theorem claim9_dispose_listeners (s : Registry) (ops : List Op) (l : Nat)
    (hreg : l ∈ s.stateListeners ∨ l ∈ s.errorListeners)
    (hfresh : l < s.nextListenerId) :
    getState (dispose s).1 = .IDLE ∧
    (∀ st, Event.notify l st ∉ (dispose s).2) ∧
    (∀ st, Event.notify l st ∉ (applyOps ops (dispose s).1).2) := by
  refine ⟨by simp [dispose, transitionTo, recordMetric, getState], ?_, ?_⟩
  · intro st hmem
    simp [dispose, transitionTo, recordMetric] at hmem
  · intro st hmem
    have hfl : ListenerFloor s.nextListenerId (dispose s).1 := by
      refine ⟨?_, ?_, ?_⟩ <;>
        simp only [dispose, transitionTo, recordMetric]
      · intro x h
        exact absurd h (List.not_mem_nil x)
      · intro x h
        exact absurd h (List.not_mem_nil x)
      · exact Nat.le_refl _
    have := applyOps_notify ops (dispose s).1 s.nextListenerId l st hfl hmem
    omega

/-- Claim C9 witness: a listener registered on a fresh executor, then
`dispose`, then an execute/registration/sync sequence; the old listener is
never notified again. -/
theorem claim9_witness :
    getState (dispose (onStateChange initialRegistry).2).1 = .IDLE ∧
    (∀ st, Event.notify 0 st ∉ (dispose (onStateChange initialRegistry).2).2) ∧
    (∀ st, Event.notify 0 st ∉
      (applyOps [Op.execute 1 cmdNoop ctxOnline, Op.onStateChange, Op.sync 1]
        (dispose (onStateChange initialRegistry).2).1).2) :=
  claim9_dispose_listeners (onStateChange initialRegistry).2
    [Op.execute 1 cmdNoop ctxOnline, Op.onStateChange, Op.sync 1] 0
    (Or.inl (by simp [onStateChange, initialRegistry, Registry.new]))
    (by simp [onStateChange, initialRegistry, Registry.new])

/-! ### Sync-loop bookkeeping -/







lemma bumpRetry_id (i : Nat) (e : OfflineQueueEntry) :
    (bumpRetry i e).id = e.id := by
  by_cases h : e.id = i <;> simp [bumpRetry, h]

lemma bump_map_ids (l : List OfflineQueueEntry) (i : Nat) :
    ((l.map (bumpRetry i)).map (fun e => e.id)) = l.map (fun e => e.id) := by
  rw [List.map_map]
  exact List.map_congr_left fun e _ => bumpRetry_id i e

lemma execute_queueFresh (fuel : Nat) (command : ResourceRegistryCommand)
    (context : ExecutionContext) (s : Registry) (hfresh : QueueFresh s) :
    QueueFresh (execute fuel command context s).2.1 := by
  obtain ⟨tail, h1, h2, h3⟩ := execute_queue fuel command context s
  obtain ⟨_, _, _, _, _, hmono⟩ := execute_frame fuel command context s
  intro e he
  rw [h1] at he
  rcases List.mem_append.mp he with h | h
  · exact Nat.lt_of_lt_of_le (hfresh e h) hmono
  · exact (h3 e h).2.1

lemma execute_queueNodup (fuel : Nat) (command : ResourceRegistryCommand)
    (context : ExecutionContext) (s : Registry)
    (hnd : QueueNodup s) (hfresh : QueueFresh s) :
    QueueNodup (execute fuel command context s).2.1 := by
  obtain ⟨tail, h1, h2, h3⟩ := execute_queue fuel command context s
  unfold QueueNodup
  rw [h1, List.map_append]
  refine List.Nodup.append hnd h2 ?_
  intro i hiq hit
  obtain ⟨e, he, rfl⟩ := List.mem_map.mp hiq
  obtain ⟨e', he', heq⟩ := List.mem_map.mp hit
  have h1' := hfresh e he
  have h2' := (h3 e' he').1
  omega

lemma syncLoop_idCounter (fuel : Nat) (entries : List OfflineQueueEntry)
    (synced failed : Nat) (s : Registry) :
    s.idCounter ≤ (syncLoop fuel entries synced failed s).2.1.idCounter := by
  induction entries generalizing synced failed s with
  | nil => exact Nat.le_refl _
  | cons entry rest ih =>
    obtain ⟨_, _, _, _, _, hmono⟩ := execute_frame fuel entry.command
      { entry.context with isOffline := false } s
    rcases hout : (execute fuel entry.command
        { entry.context with isOffline := false } s).1 with res | err <;>
      simp only [syncLoop, hout]
    · refine le_trans ?_ (ih _ _ _)
      exact hmono
    · refine le_trans ?_ (ih _ _ _)
      exact hmono
    · exact hmono

lemma syncLoop_mem_preserved (fuel : Nat) (entries : List OfflineQueueEntry)
    (synced failed : Nat) (s : Registry) (x : OfflineQueueEntry)
    (hx : x ∈ s.offlineQueue)
    (hid : x.id ∉ entries.map (fun e => e.id)) :
    x ∈ (syncLoop fuel entries synced failed s).2.1.offlineQueue := by
  induction entries generalizing synced failed s with
  | nil => exact hx
  | cons entry rest ih =>
    obtain ⟨tail, h1, _, _⟩ := execute_queue fuel entry.command
      { entry.context with isOffline := false } s
    have hxq : x ∈ (execute fuel entry.command
        { entry.context with isOffline := false } s).2.1.offlineQueue := by
      rw [h1]
      exact List.mem_append.mpr (Or.inl hx)
    have hne : x.id ≠ entry.id := by
      intro h
      exact hid (by simp [h])
    have hrest : x.id ∉ rest.map (fun e => e.id) := by
      intro h
      exact hid (by simp [h])
    rcases hout : (execute fuel entry.command
        { entry.context with isOffline := false } s).1 with res | err <;>
      simp only [syncLoop, hout]
    · refine ih _ _ _ ?_ hrest
      simp only [List.mem_filter]
      exact ⟨hxq, by simpa using hne⟩
    · refine ih _ _ _ ?_ hrest
      refine List.mem_map.mpr ⟨x, hxq, ?_⟩
      simp [hne]
    · exact hxq

lemma syncLoop_absent_preserved (fuel : Nat)
    (entries : List OfflineQueueEntry) (synced failed : Nat) (s : Registry)
    (i : Nat)
    (hi : i ∉ s.offlineQueue.map (fun e => e.id))
    (hlt : i < s.idCounter) :
    i ∉ (syncLoop fuel entries synced failed s).2.1.offlineQueue.map
      (fun e => e.id) := by
  induction entries generalizing synced failed s with
  | nil => exact hi
  | cons entry rest ih =>
    obtain ⟨tail, h1, _, h3⟩ := execute_queue fuel entry.command
      { entry.context with isOffline := false } s
    obtain ⟨_, _, _, _, _, hmono⟩ := execute_frame fuel entry.command
      { entry.context with isOffline := false } s
    have hq' : i ∉ (execute fuel entry.command
        { entry.context with isOffline := false } s).2.1.offlineQueue.map
          (fun e => e.id) := by
      rw [h1, List.map_append]
      intro h
      rcases List.mem_append.mp h with h' | h'
      · exact hi h'
      · obtain ⟨e, he, rfl⟩ := List.mem_map.mp h'
        have := (h3 e he).1
        omega
    rcases hout : (execute fuel entry.command
        { entry.context with isOffline := false } s).1 with res | err <;>
      simp only [syncLoop, hout]
    · refine ih _ _ _ ?_ (Nat.lt_of_lt_of_le hlt hmono)
      intro h
      obtain ⟨e, he, rfl⟩ := List.mem_map.mp h
      exact hq' (List.mem_map.mpr ⟨e, (List.mem_filter.mp he).1, rfl⟩)
    · refine ih _ _ _ ?_ (Nat.lt_of_lt_of_le hlt hmono)
      intro h
      rw [show (fun e => if e.id = (entry : OfflineQueueEntry).id then
            { e with retryCount := e.retryCount + 1 } else e) =
          bumpRetry entry.id from rfl, bump_map_ids] at h
      exact hq' h
    · exact hq'

lemma no_replay_facts (evs : List Event)
    (h : ∀ ev ∈ evs, ev.isReplayEv = false) :
    okCount evs = 0 ∧ failCount evs = 0 ∧ replayTrace evs = [] ∧
    (∀ i, Event.replayOk i ∉ evs) ∧ (∀ i, Event.replayFail i ∉ evs) := by
  refine ⟨?_, ?_, ?_, ?_, ?_⟩
  · simp only [okCount, List.length_eq_zero]
    rw [List.filter_eq_nil]
    intro ev hev
    have := h ev hev
    cases ev <;> simp_all [Event.isReplayEv]
  · simp only [failCount, List.length_eq_zero]
    rw [List.filter_eq_nil]
    intro ev hev
    have := h ev hev
    cases ev <;> simp_all [Event.isReplayEv]
  · rw [replayTrace, List.filterMap_eq_nil]
    intro ev hev
    have := h ev hev
    cases ev <;> simp_all [Event.isReplayEv]
  · intro i hi
    have := h _ hi
    simp [Event.isReplayEv] at this
  · intro i hi
    have := h _ hi
    simp [Event.isReplayEv] at this

lemma execute_no_replay (fuel : Nat) (command : ResourceRegistryCommand)
    (context : ExecutionContext) (s : Registry) :
    okCount (execute fuel command context s).2.2 = 0 ∧
    failCount (execute fuel command context s).2.2 = 0 ∧
    replayTrace (execute fuel command context s).2.2 = [] ∧
    (∀ i, Event.replayOk i ∉ (execute fuel command context s).2.2) ∧
    (∀ i, Event.replayFail i ∉ (execute fuel command context s).2.2) :=
  no_replay_facts _
    (fun ev hev => (execute_events_good fuel command context s ev hev).1)

lemma okCount_append (a b : List Event) :
    okCount (a ++ b) = okCount a + okCount b := by
  simp [okCount, List.filter_append]

lemma failCount_append (a b : List Event) :
    failCount (a ++ b) = failCount a + failCount b := by
  simp [failCount, List.filter_append]

lemma replayTrace_append (a b : List Event) :
    replayTrace (a ++ b) = replayTrace a ++ replayTrace b := by
  simp [replayTrace, List.filterMap_append]

lemma syncLoop_replay_ids (fuel : Nat) (entries : List OfflineQueueEntry)
    (synced failed : Nat) (s : Registry) (i : Nat) :
    (Event.replayOk i ∈ (syncLoop fuel entries synced failed s).2.2 →
      i ∈ entries.map (fun e => e.id)) ∧
    (Event.replayFail i ∈ (syncLoop fuel entries synced failed s).2.2 →
      i ∈ entries.map (fun e => e.id)) := by
  induction entries generalizing synced failed s with
  | nil => simp [syncLoop]
  | cons entry rest ih =>
    obtain ⟨_, _, _, hok, hfail⟩ := execute_no_replay fuel entry.command
      { entry.context with isOffline := false } s
    rcases hout : (execute fuel entry.command
        { entry.context with isOffline := false } s).1 with res | err <;>
      constructor <;> intro hmem <;>
      simp only [syncLoop, hout, List.mem_cons, List.mem_append] at hmem
    · rcases hmem with h | h | h | h
      · cases h
      · exact absurd h (hok i)
      · cases h
        simp
      · simp only [List.map_cons, List.mem_cons]
        exact Or.inr ((ih _ _ _).1 h)
    · rcases hmem with h | h | h | h
      · cases h
      · exact absurd h (hfail i)
      · cases h
      · simp only [List.map_cons, List.mem_cons]
        exact Or.inr ((ih _ _ _).2 h)
    · rcases hmem with h | h | h | h
      · cases h
      · exact absurd h (hok i)
      · cases h
      · simp only [List.map_cons, List.mem_cons]
        exact Or.inr ((ih _ _ _).1 h)
    · rcases hmem with h | h | h | h
      · cases h
      · exact absurd h (hfail i)
      · cases h
        simp
      · simp only [List.map_cons, List.mem_cons]
        exact Or.inr ((ih _ _ _).2 h)
    · rcases hmem with h | h
      · cases h
      · exact absurd h (hok i)
    · rcases hmem with h | h
      · cases h
      · exact absurd h (hfail i)

lemma okCount_cons_replay (i n : Nat) (evs : List Event) :
    okCount (Event.replay i n :: evs) = okCount evs := by
  simp [okCount]

lemma okCount_cons_ok (i : Nat) (evs : List Event) :
    okCount (Event.replayOk i :: evs) = okCount evs + 1 := by
  simp [okCount, List.filter_cons, Nat.add_comm]

lemma okCount_cons_fail (i : Nat) (evs : List Event) :
    okCount (Event.replayFail i :: evs) = okCount evs := by
  simp [okCount]

lemma failCount_cons_replay (i n : Nat) (evs : List Event) :
    failCount (Event.replay i n :: evs) = failCount evs := by
  simp [failCount]

lemma failCount_cons_ok (i : Nat) (evs : List Event) :
    failCount (Event.replayOk i :: evs) = failCount evs := by
  simp [failCount]

lemma failCount_cons_fail (i : Nat) (evs : List Event) :
    failCount (Event.replayFail i :: evs) = failCount evs + 1 := by
  simp [failCount, List.filter_cons, Nat.add_comm]

lemma syncLoop_counts (fuel : Nat) (entries : List OfflineQueueEntry)
    (synced failed : Nat) (s : Registry) (sy fl : Nat)
    (hsome : (syncLoop fuel entries synced failed s).1 = some (sy, fl)) :
    sy = synced + okCount (syncLoop fuel entries synced failed s).2.2 ∧
    fl = failed + failCount (syncLoop fuel entries synced failed s).2.2 ∧
    okCount (syncLoop fuel entries synced failed s).2.2 +
      failCount (syncLoop fuel entries synced failed s).2.2 =
      entries.length := by
  induction entries generalizing synced failed s with
  | nil =>
    simp only [syncLoop, Option.some.injEq, Prod.mk.injEq] at hsome
    obtain ⟨rfl, rfl⟩ := hsome
    simp [syncLoop, okCount, failCount]
  | cons entry rest ih =>
    obtain ⟨h0ok, h0fail, _, _, _⟩ := execute_no_replay fuel entry.command
      { entry.context with isOffline := false } s
    rcases hout : (execute fuel entry.command
        { entry.context with isOffline := false } s).1 with res | err <;>
      simp only [syncLoop, hout] at hsome ⊢
    · obtain ⟨hi1, hi2, hi3⟩ := ih _ _ _ hsome
      rw [okCount_cons_replay, okCount_append, h0ok, okCount_cons_ok,
        failCount_cons_replay, failCount_append, h0fail, failCount_cons_ok,
        List.length_cons]
      omega
    · obtain ⟨hi1, hi2, hi3⟩ := ih _ _ _ hsome
      rw [okCount_cons_replay, okCount_append, h0ok, okCount_cons_fail,
        failCount_cons_replay, failCount_append, h0fail, failCount_cons_fail,
        List.length_cons]
      omega
    · cases hsome

lemma syncLoop_trace (fuel : Nat) (entries : List OfflineQueueEntry)
    (synced failed : Nat) (s : Registry) (sy fl : Nat)
    (hsome : (syncLoop fuel entries synced failed s).1 = some (sy, fl)) :
    replayTrace (syncLoop fuel entries synced failed s).2.2 =
      entries.map (fun e => (e.id, e.sequenceNumber)) := by
  induction entries generalizing synced failed s with
  | nil => simp [syncLoop, replayTrace]
  | cons entry rest ih =>
    obtain ⟨_, _, h0tr, _, _⟩ := execute_no_replay fuel entry.command
      { entry.context with isOffline := false } s
    rcases hout : (execute fuel entry.command
        { entry.context with isOffline := false } s).1 with res | err <;>
      simp only [syncLoop, hout] at hsome ⊢
    · have := ih _ _ _ hsome
      simp only [replayTrace, List.filterMap_cons, List.filterMap_append]
        at this h0tr ⊢
      rw [h0tr, this]
      simp
    · have := ih _ _ _ hsome
      simp only [replayTrace, List.filterMap_cons, List.filterMap_append]
        at this h0tr ⊢
      rw [h0tr, this]
      simp
    · cases hsome

lemma syncLoop_entries_spec (fuel : Nat) (entries : List OfflineQueueEntry)
    (synced failed : Nat) (s : Registry) (sy fl : Nat)
    (hsome : (syncLoop fuel entries synced failed s).1 = some (sy, fl))
    (hsub : ∀ e ∈ entries, e ∈ s.offlineQueue)
    (hnd : QueueNodup s) (hfresh : QueueFresh s)
    (hend : (entries.map (fun e => e.id)).Nodup) :
    ∀ e ∈ entries,
      (Event.replayOk e.id ∈ (syncLoop fuel entries synced failed s).2.2 ↔
        Event.replayFail e.id ∉ (syncLoop fuel entries synced failed s).2.2) ∧
      (Event.replayOk e.id ∈ (syncLoop fuel entries synced failed s).2.2 →
        e.id ∉ (syncLoop fuel entries synced failed s).2.1.offlineQueue.map
          (fun e => e.id)) ∧
      (Event.replayFail e.id ∈ (syncLoop fuel entries synced failed s).2.2 →
        { e with retryCount := e.retryCount + 1 } ∈
          (syncLoop fuel entries synced failed s).2.1.offlineQueue) := by
  induction entries generalizing synced failed s with
  | nil =>
    intro e he
    exact absurd he (List.not_mem_nil e)
  | cons entry rest ih =>
    obtain ⟨tail, hq1, hq2, hq3⟩ := execute_queue fuel entry.command
      { entry.context with isOffline := false } s
    obtain ⟨_, _, _, _, _, hmono⟩ := execute_frame fuel entry.command
      { entry.context with isOffline := false } s
    obtain ⟨_, _, _, hok0, hfail0⟩ := execute_no_replay fuel entry.command
      { entry.context with isOffline := false } s
    have hndq : QueueNodup (execute fuel entry.command
        { entry.context with isOffline := false } s).2.1 :=
      execute_queueNodup _ _ _ _ hnd hfresh
    have hfreshq : QueueFresh (execute fuel entry.command
        { entry.context with isOffline := false } s).2.1 :=
      execute_queueFresh _ _ _ _ hfresh
    have hcons := List.nodup_cons.mp hend
    have hentid : entry.id ∉ rest.map (fun e => e.id) := hcons.1
    have hrestnd := hcons.2
    have hentq : entry ∈ s.offlineQueue := hsub entry (List.mem_cons_self entry rest)
    have hentq' : entry ∈ (execute fuel entry.command
        { entry.context with isOffline := false } s).2.1.offlineQueue := by
      rw [hq1]
      exact List.mem_append_left _ hentq
    have hentlt : entry.id < s.idCounter := hfresh entry hentq
    rcases hout : (execute fuel entry.command
        { entry.context with isOffline := false } s).1 with res | err
    · -- replay of `entry` succeeded: it is filtered out of the live queue
      simp only [syncLoop, hout] at hsome ⊢
      have hsub1 : ∀ r ∈ rest, r ∈ List.filter (fun e => e.id != entry.id)
          (execute fuel entry.command
            { entry.context with isOffline := false } s).2.1.offlineQueue := by
        intro r hr
        have hrne : r.id ≠ entry.id := by
          intro hcontra
          exact hentid (List.mem_map.mpr ⟨r, hr, hcontra⟩)
        refine List.mem_filter.mpr ⟨?_, by simpa using hrne⟩
        rw [hq1]
        exact List.mem_append_left _ (hsub r (List.mem_cons_of_mem _ hr))
      have hnd1 : ((List.filter (fun e => e.id != entry.id)
          (execute fuel entry.command
            { entry.context with isOffline := false } s).2.1.offlineQueue).map
            (fun e => e.id)).Nodup :=
        List.Nodup.sublist (List.Sublist.map _ (List.filter_sublist _)) hndq
      have hfresh1 : ∀ e ∈ List.filter (fun e => e.id != entry.id)
          (execute fuel entry.command
            { entry.context with isOffline := false } s).2.1.offlineQueue,
          e.id < (execute fuel entry.command
            { entry.context with isOffline := false } s).2.1.idCounter :=
        fun e he => hfreshq e (List.mem_filter.mp he).1
      have IH := ih _ _ _ hsome hsub1 hnd1 hfresh1 hrestnd
      intro e he
      rcases List.mem_cons.mp he with rfl | hr
      · refine ⟨iff_of_true (by simp) ?_, fun _ => ?_, fun hcontra => ?_⟩
        · intro hmem
          simp only [List.mem_cons, List.mem_append] at hmem
          rcases hmem with h | h | h | h
          · cases h
          · exact hfail0 e.id h
          · cases h
          · exact hentid ((syncLoop_replay_ids fuel rest _ _ _ e.id).2 h)
        · refine syncLoop_absent_preserved fuel rest _ _ _ e.id ?_ ?_
          · intro hmem
            obtain ⟨x, hx, hxid⟩ := List.mem_map.mp hmem
            have := (List.mem_filter.mp hx).2
            simp [hxid] at this
          · exact Nat.lt_of_lt_of_le hentlt hmono
        · exfalso
          simp only [List.mem_cons, List.mem_append] at hcontra
          rcases hcontra with h | h | h | h
          · cases h
          · exact hfail0 e.id h
          · cases h
          · exact hentid ((syncLoop_replay_ids fuel rest _ _ _ e.id).2 h)
      · obtain ⟨ihiff, ihok, ihfail⟩ := IH e hr
        have hne : e.id ≠ entry.id := by
          intro hcontra
          exact hentid (List.mem_map.mpr ⟨e, hr, hcontra⟩)
        have hokiff : ∀ ev1 : List Event,
            (Event.replayOk e.id ∈
              Event.replay entry.id entry.sequenceNumber ::
                ((execute fuel entry.command
                  { entry.context with isOffline := false } s).2.2 ++
                  Event.replayOk entry.id :: ev1)) ↔
            Event.replayOk e.id ∈ ev1 := by
          intro ev1
          simp only [List.mem_cons, List.mem_append]
          constructor
          · rintro (h | h | h | h)
            · cases h
            · exact absurd h (hok0 e.id)
            · injection h with h'
              exact absurd h' hne
            · exact h
          · intro h
            exact Or.inr (Or.inr (Or.inr h))
        have hfailiff : ∀ ev1 : List Event,
            (Event.replayFail e.id ∈
              Event.replay entry.id entry.sequenceNumber ::
                ((execute fuel entry.command
                  { entry.context with isOffline := false } s).2.2 ++
                  Event.replayOk entry.id :: ev1)) ↔
            Event.replayFail e.id ∈ ev1 := by
          intro ev1
          simp only [List.mem_cons, List.mem_append]
          constructor
          · rintro (h | h | h | h)
            · cases h
            · exact absurd h (hfail0 e.id)
            · cases h
            · exact h
          · intro h
            exact Or.inr (Or.inr (Or.inr h))
        refine ⟨?_, ?_, ?_⟩
        · rw [hokiff, hfailiff]
          exact ihiff
        · intro h
          exact ihok ((hokiff _).mp h)
        · intro h
          exact ihfail ((hfailiff _).mp h)
    · -- replay of `entry` failed: its retryCount is incremented in place
      simp only [syncLoop, hout] at hsome ⊢
      have hsub1 : ∀ r ∈ rest, r ∈ List.map (fun e =>
          if e.id = entry.id then { e with retryCount := e.retryCount + 1 }
          else e)
          (execute fuel entry.command
            { entry.context with isOffline := false } s).2.1.offlineQueue := by
        intro r hr
        have hrne : r.id ≠ entry.id := by
          intro hcontra
          exact hentid (List.mem_map.mpr ⟨r, hr, hcontra⟩)
        refine List.mem_map.mpr ⟨r, ?_, by simp [hrne]⟩
        rw [hq1]
        exact List.mem_append_left _ (hsub r (List.mem_cons_of_mem _ hr))
      have hnd1 : ((List.map (fun e =>
          if e.id = entry.id then { e with retryCount := e.retryCount + 1 }
          else e)
          (execute fuel entry.command
            { entry.context with isOffline := false } s).2.1.offlineQueue).map
            (fun e => e.id)).Nodup := by
        rw [show (fun e : OfflineQueueEntry =>
            if e.id = entry.id then { e with retryCount := e.retryCount + 1 }
            else e) = bumpRetry entry.id from rfl, bump_map_ids]
        exact hndq
      have hfresh1 : ∀ e ∈ List.map (fun e =>
          if e.id = entry.id then { e with retryCount := e.retryCount + 1 }
          else e)
          (execute fuel entry.command
            { entry.context with isOffline := false } s).2.1.offlineQueue,
          e.id < (execute fuel entry.command
            { entry.context with isOffline := false } s).2.1.idCounter := by
        intro e he
        obtain ⟨x, hx, rfl⟩ := List.mem_map.mp he
        have hxlt := hfreshq x hx
        by_cases hxe : x.id = entry.id <;> simpa [hxe] using hxlt
      have IH := ih _ _ _ hsome hsub1 hnd1 hfresh1 hrestnd
      intro e he
      rcases List.mem_cons.mp he with rfl | hr
      · refine ⟨iff_of_false ?_ (fun hn => hn (by simp)),
          fun hcontra => ?_, fun _ => ?_⟩
        · intro hmem
          simp only [List.mem_cons, List.mem_append] at hmem
          rcases hmem with h | h | h | h
          · cases h
          · exact hok0 e.id h
          · cases h
          · exact hentid ((syncLoop_replay_ids fuel rest _ _ _ e.id).1 h)
        · exfalso
          simp only [List.mem_cons, List.mem_append] at hcontra
          rcases hcontra with h | h | h | h
          · cases h
          · exact hok0 e.id h
          · cases h
          · exact hentid ((syncLoop_replay_ids fuel rest _ _ _ e.id).1 h)
        · refine syncLoop_mem_preserved fuel rest _ _ _
            { e with retryCount := e.retryCount + 1 } ?_ (by simpa using hentid)
          exact List.mem_map.mpr ⟨e, hentq', by simp⟩
      · obtain ⟨ihiff, ihok, ihfail⟩ := IH e hr
        have hne : e.id ≠ entry.id := by
          intro hcontra
          exact hentid (List.mem_map.mpr ⟨e, hr, hcontra⟩)
        have hokiff : ∀ ev1 : List Event,
            (Event.replayOk e.id ∈
              Event.replay entry.id entry.sequenceNumber ::
                ((execute fuel entry.command
                  { entry.context with isOffline := false } s).2.2 ++
                  Event.replayFail entry.id :: ev1)) ↔
            Event.replayOk e.id ∈ ev1 := by
          intro ev1
          simp only [List.mem_cons, List.mem_append]
          constructor
          · rintro (h | h | h | h)
            · cases h
            · exact absurd h (hok0 e.id)
            · cases h
            · exact h
          · intro h
            exact Or.inr (Or.inr (Or.inr h))
        have hfailiff : ∀ ev1 : List Event,
            (Event.replayFail e.id ∈
              Event.replay entry.id entry.sequenceNumber ::
                ((execute fuel entry.command
                  { entry.context with isOffline := false } s).2.2 ++
                  Event.replayFail entry.id :: ev1)) ↔
            Event.replayFail e.id ∈ ev1 := by
          intro ev1
          simp only [List.mem_cons, List.mem_append]
          constructor
          · rintro (h | h | h | h)
            · cases h
            · exact absurd h (hfail0 e.id)
            · injection h with h'
              exact absurd h' hne
            · exact h
          · intro h
            exact Or.inr (Or.inr (Or.inr h))
        refine ⟨?_, ?_, ?_⟩
        · rw [hokiff, hfailiff]
          exact ihiff
        · intro h
          exact ihok ((hokiff _).mp h)
        · intro h
          exact ihfail ((hfailiff _).mp h)
    · simp only [syncLoop, hout] at hsome
      exact absurd hsome (by simp)

lemma transitionTo_no_replay (st : CellState) (s : Registry) :
    okCount (transitionTo st s).2 = 0 ∧
    failCount (transitionTo st s).2 = 0 ∧
    replayTrace (transitionTo st s).2 = [] ∧
    (∀ i, Event.replayOk i ∉ (transitionTo st s).2) ∧
    (∀ i, Event.replayFail i ∉ (transitionTo st s).2) :=
  no_replay_facts _ (fun ev hev => (transitionTo_events_good st s ev hev).1)

/-- Claim C5: a completed `sync` returns an empty conflict list; `synced`
counts exactly the successfully replayed snapshot entries and `failed` the
failing ones, together covering the whole queue; every entry whose replay
succeeded is removed from the queue, and every entry whose replay failed is
still there with `retryCount` incremented by exactly one. -/
theorem claim5_sync_outcomes (fuel : Nat) (s : Registry) (r : SyncResult)
    (hnd : QueueNodup s) (hfresh : QueueFresh s)
    (hrun : (sync fuel s).1 = some r) :
    r.conflicts = [] ∧
    r.synced = okCount (sync fuel s).2.2 ∧
    r.failed = failCount (sync fuel s).2.2 ∧
    r.synced + r.failed = s.offlineQueue.length ∧
    ∀ e ∈ s.offlineQueue,
      (Event.replayOk e.id ∈ (sync fuel s).2.2 ↔
        Event.replayFail e.id ∉ (sync fuel s).2.2) ∧
      (Event.replayOk e.id ∈ (sync fuel s).2.2 →
        e.id ∉ (sync fuel s).2.1.offlineQueue.map (fun e => e.id)) ∧
      (Event.replayFail e.id ∈ (sync fuel s).2.2 →
        { e with retryCount := e.retryCount + 1 } ∈
          (sync fuel s).2.1.offlineQueue) := by
  obtain ⟨ht1, ht2, ht3, ht4, ht5, ht6, ht7, ht8, ht9, ht10⟩ :=
    transitionTo_frame .SYNCING s
  rcases hq : (syncLoop fuel
      (List.insertionSort entryLe (transitionTo .SYNCING s).1.offlineQueue)
      0 0 (transitionTo .SYNCING s).1).1 with _ | ⟨sy, fl⟩
  · exfalso
    simp only [sync, hq] at hrun
    exact Option.noConfusion hrun
  · simp only [sync, hq, Option.some_inj] at hrun
    subst hrun
    have hperm := List.perm_insertionSort entryLe
      (transitionTo .SYNCING s).1.offlineQueue
    obtain ⟨hc1, hc2, hc3⟩ := syncLoop_counts fuel
      (List.insertionSort entryLe (transitionTo .SYNCING s).1.offlineQueue)
      0 0 (transitionTo .SYNCING s).1 sy fl hq
    obtain ⟨hn1a, hn1b, _, hn1ok, hn1fail⟩ := transitionTo_no_replay .SYNCING s
    obtain ⟨hn2a, hn2b, _, hn2ok, hn2fail⟩ := transitionTo_no_replay .IDLE
      (syncLoop fuel
        (List.insertionSort entryLe (transitionTo .SYNCING s).1.offlineQueue)
        0 0 (transitionTo .SYNCING s).1).2.1
    have hlen : (List.insertionSort entryLe
        (transitionTo .SYNCING s).1.offlineQueue).length =
        s.offlineQueue.length := by
      rw [hperm.length_eq, ht2]
    have hokmem : ∀ i, (Event.replayOk i ∈
        (transitionTo .SYNCING s).2 ++
          (syncLoop fuel (List.insertionSort entryLe
            (transitionTo .SYNCING s).1.offlineQueue)
            0 0 (transitionTo .SYNCING s).1).2.2 ++
          (transitionTo .IDLE (syncLoop fuel (List.insertionSort entryLe
            (transitionTo .SYNCING s).1.offlineQueue)
            0 0 (transitionTo .SYNCING s).1).2.1).2) ↔
        Event.replayOk i ∈ (syncLoop fuel (List.insertionSort entryLe
          (transitionTo .SYNCING s).1.offlineQueue)
          0 0 (transitionTo .SYNCING s).1).2.2 := by
      intro i
      simp only [List.mem_append]
      constructor
      · rintro ((h | h) | h)
        · exact absurd h (hn1ok i)
        · exact h
        · exact absurd h (hn2ok i)
      · exact fun h => Or.inl (Or.inr h)
    have hfailmem : ∀ i, (Event.replayFail i ∈
        (transitionTo .SYNCING s).2 ++
          (syncLoop fuel (List.insertionSort entryLe
            (transitionTo .SYNCING s).1.offlineQueue)
            0 0 (transitionTo .SYNCING s).1).2.2 ++
          (transitionTo .IDLE (syncLoop fuel (List.insertionSort entryLe
            (transitionTo .SYNCING s).1.offlineQueue)
            0 0 (transitionTo .SYNCING s).1).2.1).2) ↔
        Event.replayFail i ∈ (syncLoop fuel (List.insertionSort entryLe
          (transitionTo .SYNCING s).1.offlineQueue)
          0 0 (transitionTo .SYNCING s).1).2.2 := by
      intro i
      simp only [List.mem_append]
      constructor
      · rintro ((h | h) | h)
        · exact absurd h (hn1fail i)
        · exact h
        · exact absurd h (hn2fail i)
      · exact fun h => Or.inl (Or.inr h)
    have hsub' : ∀ x ∈ List.insertionSort entryLe
        (transitionTo .SYNCING s).1.offlineQueue,
        x ∈ (transitionTo .SYNCING s).1.offlineQueue :=
      fun x hx => hperm.mem_iff.mp hx
    have hnd' : QueueNodup (transitionTo .SYNCING s).1 := by
      unfold QueueNodup
      rw [ht2]
      exact hnd
    have hfresh' : QueueFresh (transitionTo .SYNCING s).1 := by
      unfold QueueFresh
      rw [ht2, ht7]
      exact hfresh
    have hend' : ((List.insertionSort entryLe
        (transitionTo .SYNCING s).1.offlineQueue).map
          (fun e => e.id)).Nodup := by
      refine ((hperm.map (fun e => e.id)).nodup_iff).mpr ?_
      rw [ht2]
      exact hnd
    have hspec := syncLoop_entries_spec fuel
      (List.insertionSort entryLe (transitionTo .SYNCING s).1.offlineQueue)
      0 0 (transitionTo .SYNCING s).1 sy fl hq hsub' hnd' hfresh' hend'
    refine ⟨rfl, ?_, ?_, ?_, ?_⟩
    · simp only [sync, hq]
      rw [okCount_append, okCount_append, hn1a, hn2a]
      omega
    · simp only [sync, hq]
      rw [failCount_append, failCount_append, hn1b, hn2b]
      omega
    · show sy + fl = s.offlineQueue.length
      omega
    · intro e he
      have he' : e ∈ List.insertionSort entryLe
          (transitionTo .SYNCING s).1.offlineQueue := by
        rw [hperm.mem_iff, ht2]
        exact he
      obtain ⟨hiff, hok, hfail⟩ := hspec e he'
      simp only [sync, hq]
      rw [(transitionTo_frame .IDLE _).2.1]
      refine ⟨?_, ?_, ?_⟩
      · rw [hokmem, hfailmem]
        exact hiff
      · intro h
        exact hok ((hokmem _).mp h)
      · intro h
        exact hfail ((hfailmem _).mp h)

/-- Claim C4: a completed `sync` replays the snapshot in ascending
sequence-number order: the replay trace is the queue sorted by sequence
number, its sequence numbers are sorted, they are a permutation of the
queue's sequence numbers, and any ascending arrangement of the queue's
sequence numbers equals the replay order — hence the order is independent
of how the entries are stored in the queue. -/
theorem claim4_replay_order (fuel : Nat) (s : Registry) (r : SyncResult)
    (hrun : (sync fuel s).1 = some r) :
    replayTrace (sync fuel s).2.2 =
      (List.insertionSort entryLe s.offlineQueue).map
        (fun e => (e.id, e.sequenceNumber)) ∧
    List.Pairwise (fun a b : Nat × Nat => a.2 ≤ b.2)
      (replayTrace (sync fuel s).2.2) ∧
    ((replayTrace (sync fuel s).2.2).map (fun p => p.2)).Perm
      (s.offlineQueue.map (fun e => e.sequenceNumber)) ∧
    (∀ t : List Nat,
      t.Perm (s.offlineQueue.map (fun e => e.sequenceNumber)) →
      List.Pairwise (· ≤ ·) t →
      t = (replayTrace (sync fuel s).2.2).map (fun p => p.2)) := by
  obtain ⟨ht1, ht2, ht3, ht4, ht5, ht6, ht7, ht8, ht9, ht10⟩ :=
    transitionTo_frame .SYNCING s
  rcases hq : (syncLoop fuel
      (List.insertionSort entryLe (transitionTo .SYNCING s).1.offlineQueue)
      0 0 (transitionTo .SYNCING s).1).1 with _ | ⟨sy, fl⟩
  · exfalso
    simp only [sync, hq] at hrun
    exact Option.noConfusion hrun
  · have htr := syncLoop_trace fuel
      (List.insertionSort entryLe (transitionTo .SYNCING s).1.offlineQueue)
      0 0 (transitionTo .SYNCING s).1 sy fl hq
    obtain ⟨_, _, hn1t, _, _⟩ := transitionTo_no_replay .SYNCING s
    obtain ⟨_, _, hn2t, _, _⟩ := transitionTo_no_replay .IDLE
      (syncLoop fuel
        (List.insertionSort entryLe (transitionTo .SYNCING s).1.offlineQueue)
        0 0 (transitionTo .SYNCING s).1).2.1
    have htrace : replayTrace (sync fuel s).2.2 =
        (List.insertionSort entryLe s.offlineQueue).map
          (fun e => (e.id, e.sequenceNumber)) := by
      simp only [sync, hq]
      rw [replayTrace_append, replayTrace_append, hn1t, hn2t, htr, ht2]
      simp
    have hpw : List.Pairwise (fun a b : Nat × Nat => a.2 ≤ b.2)
        ((List.insertionSort entryLe s.offlineQueue).map
          (fun e => (e.id, e.sequenceNumber))) := by
      rw [List.pairwise_map]
      exact List.sorted_insertionSort entryLe s.offlineQueue
    have hmapmap : ((List.insertionSort entryLe s.offlineQueue).map
        (fun e => (e.id, e.sequenceNumber))).map (fun p => p.2) =
        (List.insertionSort entryLe s.offlineQueue).map
          (fun e => e.sequenceNumber) := by
      rw [List.map_map]
      rfl
    have hperm2 : (((List.insertionSort entryLe s.offlineQueue).map
        (fun e => (e.id, e.sequenceNumber))).map (fun p => p.2)).Perm
        (s.offlineQueue.map (fun e => e.sequenceNumber)) := by
      rw [hmapmap]
      exact (List.perm_insertionSort entryLe s.offlineQueue).map _
    have hpwseq : List.Pairwise (fun a b : Nat => a ≤ b)
        (((List.insertionSort entryLe s.offlineQueue).map
          (fun e => (e.id, e.sequenceNumber))).map (fun p => p.2)) := by
      rw [List.pairwise_map]
      exact hpw
    refine ⟨htrace, ?_, ?_, ?_⟩
    · rw [htrace]
      exact hpw
    · rw [htrace]
      exact hperm2
    · intro t hts htsort
      rw [htrace]
      haveI : IsAntisymm Nat (· ≤ ·) := ⟨fun a b => Nat.le_antisymm⟩
      exact List.eq_of_perm_of_sorted (hts.trans hperm2.symm) htsort hpwseq



/-- Claim C4 witness: entries stored in order 2, 3, 1 are replayed in
sequence order 1, 2, 3. -/
theorem claim4_witness :
    ((replayTrace (sync 1 regC4).2.2).map (fun p => p.2)) = [1, 2, 3] ∧
    List.Pairwise (fun a b : Nat × Nat => a.2 ≤ b.2)
      (replayTrace (sync 1 regC4).2.2) := by
  refine ⟨by decide, ?_⟩
  exact (claim4_replay_order 1 regC4
    { synced := 3, failed := 0, conflicts := [], duration := 0 }
    (by decide)).2.1

/-- Claim C5 witness: on a queue with one succeeding entry (`entA`) and one
failing entry (`entB`, `retryCount` 3), `sync` reports one synced and one
failed, removes `entA`, and leaves `entB` with `retryCount` 4. -/
theorem claim5_witness :
    (sync 1 regQ).1 =
      some { synced := 1, failed := 1, conflicts := [], duration := 0 } ∧
    ((sync 1 regQ).2.1.offlineQueue.map (fun e => (e.id, e.retryCount))) =
      [(101, 4)] ∧
    (1 : Nat) = okCount (sync 1 regQ).2.2 ∧
    (1 : Nat) = failCount (sync 1 regQ).2.2 := by
  refine ⟨by decide, by decide, ?_, ?_⟩
  · exact (claim5_sync_outcomes 1 regQ
      { synced := 1, failed := 1, conflicts := [], duration := 0 }
      (by show (regQ.offlineQueue.map (fun e => e.id)).Nodup; decide)
      (by show ∀ e ∈ regQ.offlineQueue, e.id < regQ.idCounter; decide)
      (by decide)).2.1
  · exact (claim5_sync_outcomes 1 regQ
      { synced := 1, failed := 1, conflicts := [], duration := 0 }
      (by show (regQ.offlineQueue.map (fun e => e.id)).Nodup; decide)
      (by show ∀ e ∈ regQ.offlineQueue, e.id < regQ.idCounter; decide)
      (by decide)).2.2.1

end ResourceReg
